import Mathlib

/-!
# Verification of biosim4 core components

A shallow embedding, in Lean 4, of the core data model and operations of the
biosim4 evolutionary simulator: geometry primitives (`Dir`, `Coordinate`),
the pheromone signal layers, the grid/population world state with its
deferred death/move queues, the genome-to-neural-net compiler, the survival
criteria, and the end-of-step boundary sequence.  Machine integers are
modelled as `Nat`/`Int` with explicit wrapping (`% 2^w`) where the C++
source can overflow; IEEE float expressions whose inputs and outputs are
exactly representable (integer values, divisions by powers of two) are
modelled over `ℚ`; the remaining float arithmetic (division by non-powers
of two) is modelled by exact rational arithmetic, the idealized value.
-/

namespace BioSim

/-! ## Basic types: `Compass`, `Dir` (from include/basicTypes.h, src/basicTypes.cpp)

`enum class Compass : uint8_t { SW = 0, S, SE, W, CENTER, E, NW, N, NE }`
arranged on a 3x3 keypad. -/

inductive Compass where
  | SW
  | S
  | SE
  | W
  | CENTER
  | E
  | NW
  | N
  | NE
deriving DecidableEq, Repr, Fintype

abbrev Dir := Compass

/-- `Dir::asInt()`: the numeric code of a direction (0..8). -/
def Dir.asInt : Dir → ℕ
  | .SW => 0
  | .S => 1
  | .SE => 2
  | .W => 3
  | .CENTER => 4
  | .E => 5
  | .NW => 6
  | .N => 7
  | .NE => 8

/-- The 72-entry rotation table `rotations` from src/basicTypes.cpp,
row `d.asInt()`, column `n & 7`. -/
def rotations : List Dir :=
  [.SW, .W, .NW, .N, .NE, .E, .SE, .S,
   .S, .SW, .W, .NW, .N, .NE, .E, .SE,
   .SE, .S, .SW, .W, .NW, .N, .NE, .E,
   .W, .NW, .N, .NE, .E, .SE, .S, .SW,
   .CENTER, .CENTER, .CENTER, .CENTER, .CENTER, .CENTER, .CENTER, .CENTER,
   .E, .SE, .S, .SW, .W, .NW, .N, .NE,
   .NW, .N, .NE, .E, .SE, .S, .SW, .W,
   .N, .NE, .E, .SE, .S, .SW, .W, .NW,
   .NE, .E, .SE, .S, .SW, .W, .NW, .N]

/-- Table lookup `rotations[asInt() * 8 + k]` for `k = n & 7`. -/
def rotateAux (d : Dir) (k : ℕ) : Dir :=
  rotations.getD (d.asInt * 8 + k) Compass.CENTER

/-- `Dir::rotate(int n)`: `rotations[asInt() * 8 + (n & 7)]`.  For the C++
`int` argument, `n & 7` is the low three bits of the two's-complement
representation, i.e. the mathematical `n mod 8`, which is `Int.emod n 8`. -/
def Dir.rotate (d : Dir) (n : ℤ) : Dir :=
  rotateAux d (n % 8).toNat

/-- `Dir::random8()`: `Dir(Compass::N).rotate(randomUint(0, 7))`; the random
draw is passed in explicitly as `r`. -/
def Dir.random8 (r : ℕ) : Dir :=
  Dir.rotate Compass.N (r : ℤ)

lemma emod8_nonneg (n : ℤ) : 0 ≤ n % 8 := Int.emod_nonneg n (by norm_num)

lemma emod8_lt (n : ℤ) : n % 8 < 8 := Int.emod_lt_of_pos n (by norm_num)

lemma emod8_toNat_lt (n : ℤ) : (n % 8).toNat < 8 := by
  have h1 := emod8_nonneg n
  have h2 := emod8_lt n
  omega

/-- Composition of the rotation table on the finite index domain. -/
lemma rotateAux_comp : ∀ (d : Dir) (a b : Fin 8),
    rotateAux (rotateAux d a.val) b.val = rotateAux d ((a.val + b.val) % 8) := by
  decide

/-- The table sends non-center rows to non-center entries. -/
lemma rotateAux_ne_center : ∀ (d : Dir) (a : Fin 8),
    d ≠ Compass.CENTER → rotateAux d a.val ≠ Compass.CENTER := by
  decide

/-- The center row of the table is constantly `CENTER`. -/
lemma rotateAux_center : ∀ (a : Fin 8), rotateAux Compass.CENTER a.val = Compass.CENTER := by
  decide

lemma toNat_add_emod (n m : ℤ) :
    ((n + m) % 8).toNat = ((n % 8).toNat + (m % 8).toNat) % 8 := by
  omega

/-! ## `Coordinate` (include/basicTypes.h): a pair of `int16_t`, with
wrapping arithmetic.  `wrap16` is the value of an `int16_t` holding the low
16 bits of an integer. -/

def wrap16 (z : ℤ) : ℤ := (z + 32768) % 65536 - 32768

structure Coordinate where
  x : ℤ
  y : ℤ
deriving DecidableEq, Repr

/-- Construction of a `Coordinate` from `int16_t`-cast integer expressions. -/
def mkCoord (x y : ℤ) : Coordinate := ⟨wrap16 x, wrap16 y⟩

/-- `operator-(Coordinate)`: componentwise `int16_t` subtraction. -/
def Coordinate.sub (a b : Coordinate) : Coordinate := mkCoord (a.x - b.x) (a.y - b.y)

/-- `operator+(Coordinate)`: componentwise `int16_t` addition. -/
def Coordinate.add (a b : Coordinate) : Coordinate := mkCoord (a.x + b.x) (a.y + b.y)

instance : Sub Coordinate := ⟨Coordinate.sub⟩

instance : Add Coordinate := ⟨Coordinate.add⟩

/-- `Coordinate::length()`: `(int)(std::sqrt(x * x + y * y))`, the floor of
the Euclidean norm (exact for these magnitudes). -/
def Coordinate.length (c : Coordinate) : ℕ :=
  Nat.sqrt (c.x * c.x + c.y * c.y).toNat

/-- The 16-entry `conversion` table inside `Coordinate::asDir()`. -/
def asDirConversion : List Dir :=
  [.S, .CENTER, .SW, .N, .SE, .E, .N, .N, .N, .N, .W, .NW, .N, .NE, .N, .N]

/-- `Coordinate::asDir()`: rotate the axes by ~22.5 degrees using the best
rational approximation `13860/33461` of `tan(22.5 deg)`, then classify by
the four sign tests `(yp > 0)*8 + (xp > 0)*4 + (yp > xp)*2 + (yp >= -xp)`. -/
def Coordinate.asDir (c : Coordinate) : Dir :=
  let xp := c.x * 33461 + c.y * 13860
  let yp := c.y * 33461 - c.x * 13860
  asDirConversion.getD
    ((if 0 < yp then 8 else 0) + (if 0 < xp then 4 else 0) +
      (if xp < yp then 2 else 0) + (if -xp ≤ yp then 1 else 0))
    Compass.CENTER

/-- `NormalizedCoords` table / `Dir::asNormalizedCoord()`. -/
def Dir.asNormalizedCoord : Dir → Coordinate
  | .SW => ⟨-1, -1⟩
  | .S => ⟨0, -1⟩
  | .SE => ⟨1, -1⟩
  | .W => ⟨-1, 0⟩
  | .CENTER => ⟨0, 0⟩
  | .E => ⟨1, 0⟩
  | .NW => ⟨-1, 1⟩
  | .N => ⟨0, 1⟩
  | .NE => ⟨1, 1⟩

/-! ### Claim C9: rotation algebra -/

/-- **C9.** For every direction `d` and all integers `n`, `m`,
`d.rotate(n).rotate(m) = d.rotate(n+m)`; rotation depends on `n` only
modulo 8 (45-degree steps on the eight non-center values, which are closed
under rotation), and `CENTER` is a fixed point of `rotate` for every `n`. -/
theorem C9_dir_rotate_spec :
    (∀ (d : Dir) (n m : ℤ), (d.rotate n).rotate m = d.rotate (n + m)) ∧
    (∀ (n : ℤ), Dir.rotate Compass.CENTER n = Compass.CENTER) ∧
    (∀ (d : Dir) (n : ℤ), d.rotate n = d.rotate (n % 8)) ∧
    (∀ (d : Dir) (n : ℤ), d ≠ Compass.CENTER → d.rotate n ≠ Compass.CENTER) := by
  refine ⟨?_, ?_, ?_, ?_⟩
  · intro d n m
    have ha := emod8_toNat_lt n
    have hb := emod8_toNat_lt m
    show rotateAux (rotateAux d (n % 8).toNat) (m % 8).toNat = rotateAux d ((n + m) % 8).toNat
    rw [rotateAux_comp d ⟨(n % 8).toNat, ha⟩ ⟨(m % 8).toNat, hb⟩, toNat_add_emod]
  · intro n
    have ha := emod8_toNat_lt n
    exact rotateAux_center ⟨(n % 8).toNat, ha⟩
  · intro d n
    show rotateAux d (n % 8).toNat = rotateAux d (n % 8 % 8).toNat
    congr 1
    omega
  · intro d n hd
    have ha := emod8_toNat_lt n
    exact rotateAux_ne_center d ⟨(n % 8).toNat, ha⟩ hd

/-- Witness for C9 at a concrete non-center direction and concrete steps. -/
theorem C9_dir_rotate_spec_witness :
    (Dir.rotate (Dir.rotate Compass.N 2) 3 = Dir.rotate Compass.N 5) ∧
    Dir.rotate Compass.N 3 ≠ Compass.CENTER := by
  constructor
  · have h := C9_dir_rotate_spec.1 Compass.N 2 3
    norm_num at h
    exact h
  · exact C9_dir_rotate_spec.2.2.2 Compass.N 3 (by decide)

/-! ## Signals: pheromone layers (src/src/signals.h, src/src/signals.cpp)

A layer is a `W x H` array of `uint8_t` magnitudes, modelled as a total
function on coordinates; all writes keep values in `0..255`. -/

def SIGNAL_MAX : ℕ := 255

abbrev Layer := Coordinate → ℕ

/-- Truncation toward zero of a rational, the C `(int)` cast of a float. -/
def ratTrunc (q : ℚ) : ℤ := if 0 ≤ q then ⌊q⌋ else -⌊-q⌋

/-- The inclusive integer interval `[a, b]` as a list, in increasing order. -/
def intRange (a b : ℤ) : List ℤ :=
  (List.range (b + 1 - a).toNat).map (fun i : ℕ => (a + (i : ℤ)))

/-- `visitNeighborhood(loc, radius, f)` from src/src/grid.cpp, as the list of
coordinates fed to `f`, in visit order:
`dx` sweeps `[-min((int)radius, loc.x), min((int)radius, (W - loc.x) - 1)]`,
and for each `dx`, with `extentY = (int)sqrt(radius^2 - dx^2)`,
`dy` sweeps `[-min(extentY, loc.y), min(extentY, (H - loc.y) - 1)]`;
the visited cell is `Coordinate{int16_t(loc.x + dx), int16_t(loc.y + dy)}`. -/
def visitList (W H : ℕ) (loc : Coordinate) (radius : ℚ) : List Coordinate :=
  (intRange (-(min (ratTrunc radius) loc.x)) (min (ratTrunc radius) (((W : ℤ) - loc.x) - 1))).flatMap
    (fun dx =>
      let extentY : ℤ := Nat.sqrt (⌊radius * radius - (dx : ℚ) * (dx : ℚ)⌋.toNat)
      (intRange (-(min extentY loc.y)) (min extentY (((H : ℤ) - loc.y) - 1))).map
        (fun dy => mkCoord (loc.x + dx) (loc.y + dy)))

/-- The body of the saturated-increment lambda in `Signals::increment`:
`if (cell < SIGNAL_MAX) cell = min(SIGNAL_MAX, cell + amount)`. -/
def incrementCell (l : Layer) (c : Coordinate) (amount : ℕ) : Layer :=
  fun c' =>
    if c' = c then (if l c < SIGNAL_MAX then min SIGNAL_MAX (l c + amount) else l c) else l c'

/-- `Signals::increment(layerNum, loc)`: `+1` (saturating) on every cell of
the radius-1.5 neighborhood of `loc` (which includes `loc`), then `+2`
(saturating) on `loc` itself.  `radius = 1.5`, `centerIncreaseAmount = 2`,
`neighborIncreaseAmount = 1`. -/
def Signals.increment (W H : ℕ) (l : Layer) (loc : Coordinate) : Layer :=
  let l1 := (visitList W H loc (3 / 2)).foldl (fun acc c => incrementCell acc c 1) l
  incrementCell l1 loc 2

/-- All grid cells `(x, y)`, `x` outer and `y` inner, both increasing: the
iteration order of the loops in `Signals::fade`. -/
def allCells (W H : ℕ) : List Coordinate :=
  (List.range W).flatMap
    (fun x : ℕ => (List.range H).map (fun y : ℕ => (⟨(x : ℤ), (y : ℤ)⟩ : Coordinate)))

/-- One iteration of the `Signals::fade` loop body at cell `c`:
`pheromones[layerNum][x][y] = 0;` followed by
`if (cell >= fadeAmount) cell -= fadeAmount;` with `fadeAmount = 1`. -/
def fadeCell (l : Layer) (c : Coordinate) : Layer :=
  let l1 : Layer := fun c' => if c' = c then 0 else l c'
  if 1 ≤ l1 c then (fun c' => if c' = c then l1 c - 1 else l1 c') else l1

/-- `Signals::fade(layerNum)`: the loop body applied to every cell. -/
def Signals.fade (W H : ℕ) (l : Layer) : Layer :=
  (allCells W H).foldl fadeCell l

/-- A concrete 2x2 layer holding magnitude 5 at cell `(1, 1)`. -/
def exampleLayerC1 : Layer := fun c => if c = ⟨1, 1⟩ then 5 else 0

/-! ### Claim C1: fade semantics -/

/-- **C1.** The claim states that `Signals.fade` maps each cell magnitude
`v` to `max(0, v - 1)`.  The code instead assigns `0` to the cell before the
conditional decrement (a bug acknowledged by the source's own comments), so
a cell holding 5 fades to 0, not to 4: evaluation of the embedded code at
the failing input. -/
theorem C1_fade_clears_cell :
    Signals.fade 2 2 exampleLayerC1 ⟨1, 1⟩ = 0 ∧
    max 0 (exampleLayerC1 ⟨1, 1⟩ - 1) = 4 := by
  constructor
  · rfl
  · rfl

/-! ### Helper lemmas for neighborhood iteration -/

lemma wrap16_id (z : ℤ) (h1 : -32768 ≤ z) (h2 : z ≤ 32767) : wrap16 z = z := by
  unfold wrap16
  omega

lemma mem_intRange (a b z : ℤ) : z ∈ intRange a b ↔ a ≤ z ∧ z ≤ b := by
  simp only [intRange, List.mem_map, List.mem_range]
  constructor
  · rintro ⟨i, hi, hz⟩
    omega
  · rintro ⟨h1, h2⟩
    exact ⟨(z - a).toNat, by omega, by omega⟩

lemma nodup_intRange (a b : ℤ) : (intRange a b).Nodup := by
  unfold intRange
  apply List.Nodup.map
  · intro i j h
    dsimp only at h
    omega
  · exact List.nodup_range _

lemma count_intRange (a b z : ℤ) :
    (intRange a b).count z = if a ≤ z ∧ z ≤ b then 1 else 0 := by
  by_cases h : a ≤ z ∧ z ≤ b
  · rw [if_pos h]
    exact List.count_eq_one_of_mem (nodup_intRange a b) ((mem_intRange a b z).mpr h)
  · rw [if_neg h]
    exact List.count_eq_zero_of_not_mem (fun hz => h ((mem_intRange a b z).mp hz))

lemma count_flatMap {α β : Type} [DecidableEq β] (L : List α) (f : α → List β) (b : β) :
    (L.flatMap f).count b = (L.map (fun a => (f a).count b)).sum := by
  induction L with
  | nil => rfl
  | cons a t ih => simp [List.count_append, ih]

lemma sum_map_ite_eq (L : List ℤ) (t : ℤ) (v : ℤ → ℕ) :
    (L.map (fun a => if a = t then v a else 0)).sum = L.count t * v t := by
  induction L with
  | nil => simp
  | cons a tl ih =>
    by_cases h : a = t
    · subst h
      simp [ih, List.count_cons]
      ring
    · simp [ih, List.count_cons, h]

lemma count_map_coord (L : List ℤ) (X Y0 : ℤ) (c : Coordinate) :
    (L.map (fun dy => (⟨X, Y0 + dy⟩ : Coordinate))).count c =
      if c.x = X then L.count (c.y - Y0) else 0 := by
  rcases c with ⟨cx, cy⟩
  induction L with
  | nil => simp
  | cons dy t ih =>
    simp only [List.map_cons, List.count_cons, ih, beq_iff_eq]
    by_cases hx : (⟨cx, cy⟩ : Coordinate).x = X
    · simp only [if_pos hx]
      by_cases hy : dy = cy - Y0
      · have he : (⟨X, Y0 + dy⟩ : Coordinate) = ⟨cx, cy⟩ := by
          simp only [Coordinate.mk.injEq]
          simp only at hx
          omega
        rw [if_pos he, if_pos (by simpa using hy)]
      · have he : ¬(⟨X, Y0 + dy⟩ : Coordinate) = ⟨cx, cy⟩ := by
          simp only [Coordinate.mk.injEq]
          simp only at hx
          rintro ⟨h1, h2⟩
          omega
        rw [if_neg he, if_neg (by simpa using hy)]
    · have he : ¬(⟨X, Y0 + dy⟩ : Coordinate) = ⟨cx, cy⟩ := by
        simp only [Coordinate.mk.injEq]
        simp only at hx
        rintro ⟨h1, h2⟩
        exact hx h1.symm
      simp only [if_neg hx, if_neg he, Nat.add_zero]

/-- Saturating `+1` repeated over a list: the value at `c` after the fold is
`min 255 (l c + count)`, provided the starting value is a `uint8_t` value. -/
lemma foldl_incrementCell (L : List Coordinate) (l : Layer) (c : Coordinate)
    (h : l c ≤ 255) :
    (L.foldl (fun acc c' => incrementCell acc c' 1) l) c = min 255 (l c + L.count c) := by
  induction L generalizing l with
  | nil =>
    simp
    omega
  | cons a t ih =>
    simp only [List.foldl_cons, List.count_cons, beq_iff_eq]
    by_cases hac : a = c
    · subst hac
      have hval : (incrementCell l a 1) a = min 255 (l a + 1) := by
        unfold incrementCell SIGNAL_MAX
        simp only [if_pos rfl, eq_self_iff_true, if_true]
        split
        · omega
        · omega
      rw [ih (incrementCell l a 1) (by rw [hval]; omega)]
      rw [hval]
      simp only [if_pos rfl, eq_self_iff_true, if_true]
      omega
    · have hval : (incrementCell l a 1) c = l c := by
        unfold incrementCell
        rw [if_neg (fun h' => hac h'.symm)]
      rw [ih (incrementCell l a 1) (by rw [hval]; exact h)]
      rw [hval]
      simp [hac]

lemma floor_five_fourths : ⌊(5 / 4 : ℚ)⌋ = 1 := by
  rw [Int.floor_eq_iff]
  norm_num

lemma floor_nine_fourths : ⌊(9 / 4 : ℚ)⌋ = 2 := by
  rw [Int.floor_eq_iff]
  norm_num

lemma ratTrunc_three_halves : ratTrunc (3 / 2) = 1 := by
  unfold ratTrunc
  rw [if_pos (by norm_num)]
  rw [Int.floor_eq_iff]
  norm_num

lemma extentY_three_halves (dx : ℤ) (h1 : -1 ≤ dx) (h2 : dx ≤ 1) :
    (Nat.sqrt (⌊(3 / 2 : ℚ) * (3 / 2) - (dx : ℚ) * (dx : ℚ)⌋.toNat) : ℤ) = 1 := by
  interval_cases dx
  · rw [show ((3 / 2 : ℚ) * (3 / 2) - ((-1 : ℤ) : ℚ) * ((-1 : ℤ) : ℚ)) = 5 / 4 by
      push_cast; ring]
    rw [floor_five_fourths]
    norm_num
  · rw [show ((3 / 2 : ℚ) * (3 / 2) - ((0 : ℤ) : ℚ) * ((0 : ℤ) : ℚ)) = 9 / 4 by
      push_cast; ring]
    rw [floor_nine_fourths]
    rw [show Int.toNat 2 = 2 from rfl]
    norm_num
  · rw [show ((3 / 2 : ℚ) * (3 / 2) - ((1 : ℤ) : ℚ) * ((1 : ℤ) : ℚ)) = 5 / 4 by
      push_cast; ring]
    rw [floor_five_fourths]
    norm_num

lemma inner_visit_count (H : ℕ) (loc c : Coordinate) (dx : ℤ) (hH : H ≤ 32768)
    (hd1 : -1 ≤ dx) (hd2 : dx ≤ 1)
    (hx1 : 0 ≤ loc.x + dx) (hx2 : loc.x + dx ≤ 32767)
    (hly : 0 ≤ loc.y) (hly2 : loc.y < (H : ℤ)) :
    ((intRange
        (-(min ((Nat.sqrt (⌊(3 / 2 : ℚ) * (3 / 2) - (dx : ℚ) * (dx : ℚ)⌋.toNat) : ℤ)) loc.y))
        (min ((Nat.sqrt (⌊(3 / 2 : ℚ) * (3 / 2) - (dx : ℚ) * (dx : ℚ)⌋.toNat) : ℤ))
          (((H : ℤ) - loc.y) - 1))).map
      (fun dy => mkCoord (loc.x + dx) (loc.y + dy))).count c =
      if c.x = loc.x + dx ∧ 0 ≤ c.y ∧ c.y < (H : ℤ) ∧ -1 ≤ c.y - loc.y ∧ c.y - loc.y ≤ 1
      then 1 else 0 := by
  rw [extentY_three_halves dx hd1 hd2]
  have hcong : ∀ dy ∈ intRange (-(min 1 loc.y)) (min 1 (((H : ℤ) - loc.y) - 1)),
      mkCoord (loc.x + dx) (loc.y + dy) = (⟨loc.x + dx, loc.y + dy⟩ : Coordinate) := by
    intro dy hdy
    rw [mem_intRange] at hdy
    unfold mkCoord
    rw [wrap16_id _ (by omega) (by omega), wrap16_id _ (by omega) (by omega)]
  rw [List.map_congr_left hcong, count_map_coord, count_intRange]
  split_ifs <;> omega

lemma count_visitList_moore (W H : ℕ) (loc c : Coordinate)
    (hW : W ≤ 32768) (hH : H ≤ 32768)
    (hlx : 0 ≤ loc.x) (hlx2 : loc.x < (W : ℤ)) (hly : 0 ≤ loc.y) (hly2 : loc.y < (H : ℤ)) :
    (visitList W H loc (3 / 2)).count c =
      if 0 ≤ c.x ∧ c.x < (W : ℤ) ∧ 0 ≤ c.y ∧ c.y < (H : ℤ) ∧
          -1 ≤ c.x - loc.x ∧ c.x - loc.x ≤ 1 ∧ -1 ≤ c.y - loc.y ∧ c.y - loc.y ≤ 1 then
        1
      else 0 := by
  unfold visitList
  rw [ratTrunc_three_halves, count_flatMap]
  have hcong : ∀ dx ∈ intRange (-(min 1 loc.x)) (min 1 (((W : ℤ) - loc.x) - 1)),
      ((intRange
          (-(min ((Nat.sqrt (⌊(3 / 2 : ℚ) * (3 / 2) - (dx : ℚ) * (dx : ℚ)⌋.toNat) : ℤ)) loc.y))
          (min ((Nat.sqrt (⌊(3 / 2 : ℚ) * (3 / 2) - (dx : ℚ) * (dx : ℚ)⌋.toNat) : ℤ))
            (((H : ℤ) - loc.y) - 1))).map
        (fun dy => mkCoord (loc.x + dx) (loc.y + dy))).count c =
        (fun dx' : ℤ => if dx' = c.x - loc.x then
            (if 0 ≤ c.y ∧ c.y < (H : ℤ) ∧ -1 ≤ c.y - loc.y ∧ c.y - loc.y ≤ 1 then 1 else 0)
          else 0) dx := by
    intro dx hdx
    rw [mem_intRange] at hdx
    rw [inner_visit_count H loc c dx hH (by omega) (by omega) (by omega) (by omega) hly hly2]
    simp only
    split_ifs <;> omega
  rw [List.map_congr_left hcong, sum_map_ite_eq, count_intRange]
  split_ifs <;> omega

/-- In-bounds predicate on grid coordinates, `Grid::isInBounds`. -/
def inBoundsWH (W H : ℕ) (c : Coordinate) : Prop :=
  0 ≤ c.x ∧ c.x < (W : ℤ) ∧ 0 ≤ c.y ∧ c.y < (H : ℤ)

lemma mem_allCells (W H : ℕ) (c : Coordinate) :
    c ∈ allCells W H ↔ inBoundsWH W H c := by
  unfold allCells inBoundsWH
  rcases c with ⟨cx, cy⟩
  simp only [List.mem_flatMap, List.mem_map, List.mem_range]
  constructor
  · rintro ⟨x, hx, y, hy, he⟩
    rw [Coordinate.mk.injEq] at he
    obtain ⟨h1, h2⟩ := he
    constructor
    · omega
    constructor
    · omega
    constructor
    · omega
    · omega
  · rintro ⟨h1, h2, h3, h4⟩
    exact ⟨cx.toNat, by omega, cy.toNat, by omega, by rw [Coordinate.mk.injEq]; omega⟩

/-- The all-zero signal layer. -/
def zeroLayer : Layer := fun _ => 0

/-! ### Claim C8: deposit (increment) semantics -/

/-- **C8.**  One call to `Signals.increment(layer, loc)` adds 1 to every
in-bounds cell of the radius-1.5 (9-cell Moore) neighborhood of `loc` and
then adds 2 more to `loc` itself, each addition saturating at 255; in
particular on a zeroed 8x8 layer a deposit at `(4,4)` yields 3 at `(4,4)`,
1 at its eight neighbors, and 0 everywhere else. -/
theorem C8_increment_spec :
    (∀ (W H : ℕ) (l : Layer) (loc c : Coordinate),
      W ≤ 32768 → H ≤ 32768 →
      inBoundsWH W H loc → inBoundsWH W H c →
      (∀ c', l c' ≤ 255) →
      Signals.increment W H l loc c =
        if c = loc then min 255 (l c + 3)
        else if -1 ≤ c.x - loc.x ∧ c.x - loc.x ≤ 1 ∧ -1 ≤ c.y - loc.y ∧ c.y - loc.y ≤ 1 then
          min 255 (l c + 1)
        else l c) ∧
    (∀ c ∈ allCells 8 8,
      Signals.increment 8 8 zeroLayer ⟨4, 4⟩ c =
        if c = ⟨4, 4⟩ then 3
        else if -1 ≤ c.x - 4 ∧ c.x - 4 ≤ 1 ∧ -1 ≤ c.y - 4 ∧ c.y - 4 ≤ 1 then 1
        else 0) := by
  have hgen : ∀ (W H : ℕ) (l : Layer) (loc c : Coordinate),
      W ≤ 32768 → H ≤ 32768 →
      inBoundsWH W H loc → inBoundsWH W H c →
      (∀ c', l c' ≤ 255) →
      Signals.increment W H l loc c =
        if c = loc then min 255 (l c + 3)
        else if -1 ≤ c.x - loc.x ∧ c.x - loc.x ≤ 1 ∧ -1 ≤ c.y - loc.y ∧ c.y - loc.y ≤ 1 then
          min 255 (l c + 1)
        else l c := by
    intro W H l loc c hW hH hloc hc hl
    obtain ⟨hlx, hlx2, hly, hly2⟩ := hloc
    obtain ⟨hcx, hcx2, hcy, hcy2⟩ := hc
    have hlc := hl c
    have hlloc := hl loc
    have hcount := count_visitList_moore W H loc c hW hH hlx hlx2 hly hly2
    have hcountloc := count_visitList_moore W H loc loc hW hH hlx hlx2 hly hly2
    unfold Signals.increment
    set l1 := List.foldl (fun acc c' => incrementCell acc c' 1) l (visitList W H loc (3 / 2))
      with hl1def
    have hfold : l1 c = min 255 (l c + (visitList W H loc (3 / 2)).count c) :=
      foldl_incrementCell _ l c hlc
    have hfoldloc : l1 loc = min 255 (l loc + (visitList W H loc (3 / 2)).count loc) :=
      foldl_incrementCell _ l loc hlloc
    rw [hcount] at hfold
    rw [hcountloc] at hfoldloc
    rw [if_pos (by omega)] at hfoldloc
    unfold incrementCell SIGNAL_MAX
    by_cases hcl : c = loc
    · subst hcl
      rw [if_pos rfl, if_pos rfl]
      split <;> omega
    · rw [if_neg hcl, hfold]
      split_ifs <;> omega
  refine ⟨hgen, ?_⟩
  intro c hc
  rw [mem_allCells] at hc
  rw [hgen 8 8 zeroLayer ⟨4, 4⟩ c (by omega) (by omega) (by unfold inBoundsWH; norm_num) hc
    (fun c' => by unfold zeroLayer; omega)]
  simp only [zeroLayer]
  split_ifs <;> norm_num

/-- Witness for C8 at the 8x8 scenario: the center cell, one neighbor, and
one distant cell. -/
theorem C8_increment_spec_witness :
    Signals.increment 8 8 zeroLayer ⟨4, 4⟩ ⟨4, 4⟩ = 3 ∧
    Signals.increment 8 8 zeroLayer ⟨4, 4⟩ ⟨3, 4⟩ = 1 ∧
    Signals.increment 8 8 zeroLayer ⟨4, 4⟩ ⟨0, 0⟩ = 0 := by
  refine ⟨?_, ?_, ?_⟩
  · rw [C8_increment_spec.2 ⟨4, 4⟩ (by rw [mem_allCells]; unfold inBoundsWH; norm_num)]
    norm_num
  · rw [C8_increment_spec.2 ⟨3, 4⟩ (by rw [mem_allCells]; unfold inBoundsWH; norm_num)]
    norm_num
  · rw [C8_increment_spec.2 ⟨0, 0⟩ (by rw [mem_allCells]; unfold inBoundsWH; norm_num)]
    norm_num

/-! ## Genome and the genome → neural-net compiler
(src/src/core/genetics/genome-neurons.h, src/src/core/genetics/genome.cpp)

A `Gene` packs `sourceType : 1`, `sourceNum : 7`, `sinkType : 1`,
`sinkNum : 7` bit fields and an `int16_t` weight; the 7-bit fields make
every stored index (and hence every node-map key) smaller than 128.
`NodeMap` models the `std::map<uint16_t, Node>` as an association list kept
sorted by key (the iteration order of `std::map`); `uint16_t` counter
arithmetic wraps modulo 65536. -/

def SENSOR : ℕ := 1
def ACTION : ℕ := 1
def NEURON : ℕ := 0

def NUM_SENSES : ℕ := 21
def NUM_ACTIONS : ℕ := 16

structure Gene where
  sourceType : ℕ
  sourceNum : ℕ
  sinkType : ℕ
  sinkNum : ℕ
  weight : ℤ
deriving DecidableEq, Repr

structure Node where
  remappedNumber : ℕ
  numOutputs : ℕ
  numSelfInputs : ℕ
  numInputsFromSensorsOrOtherNeurons : ℕ
deriving DecidableEq, Repr

/-- A value-initialized `Node` (all fields zero), as produced by
`std::map::operator[]` on a missing key and by the explicit insertions. -/
def Node.zero : Node := ⟨0, 0, 0, 0⟩

abbrev NodeMap := List (ℕ × Node)

/-- `uint16_t` increment. -/
def u16succ (v : ℕ) : ℕ := (v + 1) % 65536

/-- `uint16_t` decrement. -/
def u16pred (v : ℕ) : ℕ := (v + 65535) % 65536

/-- `std::map::find`. -/
def nmFind : NodeMap → ℕ → Option Node
  | [], _ => none
  | (k, v) :: t, k' => if k = k' then some v else nmFind t k'

/-- `std::map::insert`: insert at the sorted position; no effect when the
key is already present. -/
def nmInsert : NodeMap → ℕ → Node → NodeMap
  | [], k, v => [(k, v)]
  | (k', v') :: t, k, v =>
    if k < k' then (k, v) :: (k', v') :: t
    else if k = k' then (k', v') :: t
    else (k', v') :: nmInsert t k v

/-- Overwrite the value stored at a present key. -/
def nmSet : NodeMap → ℕ → Node → NodeMap
  | [], _, _ => []
  | (k', v') :: t, k, v => if k' = k then (k, v) :: t else (k', v') :: nmSet t k v

/-- `std::map::erase` of a key. -/
def nmErase : NodeMap → ℕ → NodeMap
  | [], _ => []
  | (k', v') :: t, k => if k' = k then t else (k', v') :: nmErase t k

/-- `std::map::operator[]`: return the stored node, default-inserting a
value-initialized node when the key is missing. -/
def nmIndexRef (m : NodeMap) (k : ℕ) : NodeMap × Node :=
  match nmFind m k with
  | some v => (m, v)
  | none => (nmInsert m k Node.zero, Node.zero)

/-- `makeRenumberedConnectionList`: copy each gene with its source/sink
numbers reduced modulo the relevant cardinality; each assignment stores into
a 7-bit bit field, hence the final `% 128`. -/
def renumberGene (maxN : ℕ) (g : Gene) : Gene :=
  { g with
    sourceNum := (if g.sourceType = NEURON then g.sourceNum % maxN else g.sourceNum % NUM_SENSES) % 128,
    sinkNum := (if g.sinkType = NEURON then g.sinkNum % maxN else g.sinkNum % NUM_ACTIONS) % 128 }

def makeRenumberedConnectionList (maxN : ℕ) (genome : List Gene) : List Gene :=
  genome.map (renumberGene maxN)

/-- The sink-side block of the `makeNodeList` loop body. -/
def processConnSink (m : NodeMap) (c : Gene) : NodeMap :=
  if c.sinkType = NEURON then
    let m1 := if (nmFind m c.sinkNum).isSome then m else nmInsert m c.sinkNum Node.zero
    let nd := (nmFind m1 c.sinkNum).getD Node.zero
    if c.sourceType = NEURON ∧ c.sourceNum = c.sinkNum then
      nmSet m1 c.sinkNum { nd with numSelfInputs := u16succ nd.numSelfInputs }
    else
      nmSet m1 c.sinkNum
        { nd with numInputsFromSensorsOrOtherNeurons := u16succ nd.numInputsFromSensorsOrOtherNeurons }
  else m

/-- The source-side block of the `makeNodeList` loop body. -/
def processConnSource (m : NodeMap) (c : Gene) : NodeMap :=
  if c.sourceType = NEURON then
    let m1 := if (nmFind m c.sourceNum).isSome then m else nmInsert m c.sourceNum Node.zero
    let nd := (nmFind m1 c.sourceNum).getD Node.zero
    nmSet m1 c.sourceNum { nd with numOutputs := u16succ nd.numOutputs }
  else m

/-- `makeNodeList`: scan the renumbered connection list, tracking, for every
neuron referenced as sink or source, its self-input, external-input and
output counts. -/
def makeNodeList (conns : List Gene) : NodeMap :=
  conns.foldl (fun m c => processConnSource (processConnSink m c) c) ([] : NodeMap)

/-- `nodeMap[sourceNum].numOutputs--` via `operator[]` (default-inserts). -/
def nmDecOutputs (m : NodeMap) (k : ℕ) : NodeMap :=
  match nmFind m k with
  | some nd => nmSet m k { nd with numOutputs := u16pred nd.numOutputs }
  | none => nmInsert m k { Node.zero with numOutputs := u16pred 0 }

/-- `removeConnectionsToNeuron(connections, nodeMap, neuronNumber)`: drop
every connection whose sink is the given neuron, decrementing the source
neuron's output count for each dropped connection. -/
def removeConnectionsToNeuron : List Gene → NodeMap → ℕ → List Gene × NodeMap
  | [], m, _ => ([], m)
  | c :: rest, m, n =>
    if c.sinkType = NEURON ∧ c.sinkNum = n then
      let m1 := if c.sourceType = NEURON then nmDecOutputs m c.sourceNum else m
      removeConnectionsToNeuron rest m1 n
    else
      let p := removeConnectionsToNeuron rest m n
      (c :: p.1, p.2)

/-- The first map entry whose key is at least `k`: the iterator position of
the `cullUselessNeurons` scan in the sorted map. -/
def nmFirstKeyGE (m : NodeMap) (k : ℕ) : Option (ℕ × Node) :=
  m.find? (fun e => k ≤ e.1)

/-- Number of map entries whose key is at least `cursor`. -/
def keyCountGE (m : NodeMap) (cursor : ℕ) : ℕ :=
  m.countP (fun e => decide (cursor ≤ e.1))

/-! ### Termination bookkeeping for the culling loop -/

lemma length_nmSet (m : NodeMap) (k : ℕ) (v : Node) : (nmSet m k v).length = m.length := by
  induction m with
  | nil => rfl
  | cons e t ih =>
    rcases e with ⟨k', v'⟩
    unfold nmSet
    split
    · simp
    · simp [ih]

lemma keyCountGE_nmSet (m : NodeMap) (k : ℕ) (v : Node) (cursor : ℕ) :
    keyCountGE (nmSet m k v) cursor = keyCountGE m cursor := by
  induction m with
  | nil => rfl
  | cons e t ih =>
    rcases e with ⟨k', v'⟩
    unfold nmSet keyCountGE
    split
    · rename_i hk
      subst hk
      simp [List.countP_cons]
    · simp only [List.countP_cons]
      unfold keyCountGE at ih
      omega

lemma length_nmInsert_le (m : NodeMap) (k : ℕ) (v : Node) :
    (nmInsert m k v).length ≤ m.length + 1 := by
  induction m with
  | nil => simp [nmInsert]
  | cons e t ih =>
    rcases e with ⟨k', v'⟩
    unfold nmInsert
    split
    · simp
    · split
      · simp
      · simp only [List.length_cons]
        omega

lemma keyCountGE_nmInsert_le (m : NodeMap) (k : ℕ) (v : Node) (cursor : ℕ) :
    keyCountGE (nmInsert m k v) cursor ≤ keyCountGE m cursor + 1 := by
  induction m with
  | nil =>
    simp only [nmInsert, keyCountGE, List.countP_nil, List.countP_cons]
    split_ifs <;> omega
  | cons e t ih =>
    rcases e with ⟨k', v'⟩
    unfold nmInsert keyCountGE
    split
    · simp only [List.countP_cons]
      split_ifs <;> omega
    · split
      · omega
      · simp only [List.countP_cons]
        unfold keyCountGE at ih
        split_ifs <;> omega

lemma nmDecOutputs_le (m : NodeMap) (k : ℕ) (cursor : ℕ) :
    keyCountGE (nmDecOutputs m k) cursor ≤ keyCountGE m cursor + 1 ∧
    (nmDecOutputs m k).length ≤ m.length + 1 := by
  unfold nmDecOutputs
  split
  · rw [keyCountGE_nmSet, length_nmSet]
    omega
  · exact ⟨keyCountGE_nmInsert_le m k _ cursor, length_nmInsert_le m k _⟩

lemma removeConns_le (conns : List Gene) (m : NodeMap) (n : ℕ) (cursor : ℕ) :
    (removeConnectionsToNeuron conns m n).1.length ≤ conns.length ∧
    (removeConnectionsToNeuron conns m n).1.length +
        keyCountGE (removeConnectionsToNeuron conns m n).2 cursor ≤
      conns.length + keyCountGE m cursor ∧
    (removeConnectionsToNeuron conns m n).1.length +
        (removeConnectionsToNeuron conns m n).2.length ≤
      conns.length + m.length := by
  induction conns generalizing m with
  | nil => simp [removeConnectionsToNeuron]
  | cons c rest ih =>
    unfold removeConnectionsToNeuron
    split
    · rename_i hcond
      by_cases hs : c.sourceType = NEURON
      · rw [if_pos hs]
        have h1 := nmDecOutputs_le m c.sourceNum cursor
        have h2 := ih (nmDecOutputs m c.sourceNum)
        simp only [List.length_cons]
        omega
      · rw [if_neg hs]
        have h2 := ih m
        simp only [List.length_cons]
        omega
    · have h2 := ih m
      simp only [List.length_cons]
      omega

lemma nmFirstKeyGE_mem (m : NodeMap) (cursor : ℕ) (k : ℕ) (nd : Node)
    (h : nmFirstKeyGE m cursor = some (k, nd)) : (k, nd) ∈ m ∧ cursor ≤ k := by
  constructor
  · exact List.mem_of_find?_eq_some h
  · have := List.find?_some h
    simpa using this

lemma keyCountGE_lt_of_mem (m : NodeMap) (k : ℕ) (nd : Node) (cursor : ℕ)
    (hmem : (k, nd) ∈ m) (hck : cursor ≤ k) :
    keyCountGE m (k + 1) < keyCountGE m cursor := by
  induction m with
  | nil => simp at hmem
  | cons e t ih =>
    rcases e with ⟨k', v'⟩
    unfold keyCountGE
    simp only [List.countP_cons]
    rcases List.mem_cons.mp hmem with he | ht
    · have hk : k' = k := by
        have := congrArg Prod.fst he.symm
        simpa using this
      subst hk
      have hmono : t.countP (fun e => decide (k' + 1 ≤ e.1)) ≤
          t.countP (fun e => decide (cursor ≤ e.1)) := by
        apply List.countP_mono_left
        intro e he'
        simp only [decide_eq_true_eq]
        intro h1
        omega
      simp only [decide_eq_true_eq]
      rw [if_neg (by omega), if_pos (by omega)]
      unfold keyCountGE at *
      omega
    · have := ih ht
      unfold keyCountGE at this
      simp only [decide_eq_true_eq]
      by_cases h1 : k + 1 ≤ k'
      · rw [if_pos h1, if_pos (by omega)]
        omega
      · rw [if_neg h1]
        split <;> omega

lemma nmFind_nmSet_isSome (m : NodeMap) (k' : ℕ) (v : Node) (k : ℕ) :
    (nmFind (nmSet m k' v) k).isSome = (nmFind m k).isSome := by
  induction m with
  | nil => rfl
  | cons e t ih =>
    rcases e with ⟨k0, v0⟩
    unfold nmSet
    by_cases h0 : k0 = k'
    · rw [if_pos h0]
      subst h0
      unfold nmFind
      by_cases hk : k0 = k
      · rw [if_pos hk, if_pos hk]
        simp
      · rw [if_neg hk, if_neg hk]
    · rw [if_neg h0]
      unfold nmFind
      by_cases hk : k0 = k
      · rw [if_pos hk, if_pos hk]
      · rw [if_neg hk, if_neg hk]
        exact ih

lemma nmFind_nmInsert_isSome (m : NodeMap) (k' : ℕ) (v : Node) (k : ℕ)
    (h : (nmFind m k).isSome) : (nmFind (nmInsert m k' v) k).isSome := by
  induction m with
  | nil => simp [nmFind] at h
  | cons e t ih =>
    rcases e with ⟨k0, v0⟩
    unfold nmInsert
    by_cases h1 : k' < k0
    · rw [if_pos h1]
      unfold nmFind
      by_cases hk : k' = k
      · rw [if_pos hk]
        simp
      · rw [if_neg hk]
        exact h
    · rw [if_neg h1]
      by_cases h2 : k' = k0
      · rw [if_pos h2]
        exact h
      · rw [if_neg h2]
        unfold nmFind at h ⊢
        by_cases hk : k0 = k
        · rw [if_pos hk]
          simp
        · rw [if_neg hk]
          rw [if_neg hk] at h
          exact ih h

lemma nmFind_nmDecOutputs_isSome (m : NodeMap) (j : ℕ) (k : ℕ)
    (h : (nmFind m k).isSome) : (nmFind (nmDecOutputs m j) k).isSome := by
  unfold nmDecOutputs
  split
  · rw [nmFind_nmSet_isSome]
    exact h
  · exact nmFind_nmInsert_isSome m j _ k h

lemma nmFind_removeConns_isSome (conns : List Gene) (m : NodeMap) (n : ℕ) (k : ℕ)
    (h : (nmFind m k).isSome) :
    (nmFind (removeConnectionsToNeuron conns m n).2 k).isSome := by
  induction conns generalizing m with
  | nil => exact h
  | cons c rest ih =>
    unfold removeConnectionsToNeuron
    split
    · split
      · exact ih _ (nmFind_nmDecOutputs_isSome m c.sourceNum k h)
      · exact ih _ h
    · exact ih _ h

lemma nmFind_isSome_of_mem (m : NodeMap) (k : ℕ) (nd : Node) (h : (k, nd) ∈ m) :
    (nmFind m k).isSome := by
  induction m with
  | nil => simp at h
  | cons e t ih =>
    rcases e with ⟨k0, v0⟩
    unfold nmFind
    by_cases hk : k0 = k
    · rw [if_pos hk]
      simp
    · rw [if_neg hk]
      rcases List.mem_cons.mp h with he | ht
      · exact absurd (congrArg Prod.fst he.symm) (by simpa using hk)
      · exact ih ht

lemma length_nmErase_isSome (m : NodeMap) (k : ℕ) (h : (nmFind m k).isSome) :
    (nmErase m k).length + 1 = m.length := by
  induction m with
  | nil => simp [nmFind] at h
  | cons e t ih =>
    rcases e with ⟨k0, v0⟩
    unfold nmErase
    by_cases hk : k0 = k
    · rw [if_pos hk]
      simp
    · rw [if_neg hk]
      unfold nmFind at h
      rw [if_neg hk] at h
      have h3 := ih h
      simp only [List.length_cons]
      omega

lemma keyCountGE_nmErase_le (m : NodeMap) (k : ℕ) (cursor : ℕ) :
    keyCountGE (nmErase m k) cursor ≤ keyCountGE m cursor := by
  induction m with
  | nil => simp [nmErase]
  | cons e t ih =>
    rcases e with ⟨k0, v0⟩
    unfold nmErase keyCountGE
    split
    · simp only [List.countP_cons]
      unfold keyCountGE at *
      omega
    · simp only [List.countP_cons]
      unfold keyCountGE at *
      omega

/-- One round of the `while (!allDone)` scan in `cullUselessNeurons`:
starting at `cursor`, visit the map entries in ascending key order; erase
any entry whose `numOutputs` equals its `numSelfInputs` (first removing its
incoming connections via `removeConnectionsToNeuron`, which decrements
source output counts); the Boolean records whether anything was erased
(`allDone = false`). -/
def cullPass (conns : List Gene) (m : NodeMap) (cursor : ℕ) : List Gene × NodeMap × Bool :=
  match hfind : nmFirstKeyGE m cursor with
  | none => (conns, m, false)
  | some (k, nd) =>
    if nd.numOutputs = nd.numSelfInputs then
      let p := removeConnectionsToNeuron conns m k
      let m2 := nmErase p.2 k
      let q := cullPass p.1 m2 (k + 1)
      (q.1, q.2.1, true)
    else
      cullPass conns m (k + 1)
termination_by 2 * conns.length + keyCountGE m cursor
decreasing_by
  · have hm := nmFirstKeyGE_mem m cursor k nd hfind
    have hrc := removeConns_le conns m k (k + 1)
    have he := keyCountGE_nmErase_le (removeConnectionsToNeuron conns m k).2 k (k + 1)
    have hlt := keyCountGE_lt_of_mem m k nd cursor hm.1 hm.2
    omega
  · have hm := nmFirstKeyGE_mem m cursor k nd hfind
    have hlt := keyCountGE_lt_of_mem m k nd cursor hm.1 hm.2
    omega

lemma cullPass_le (conns : List Gene) (m : NodeMap) (cursor : ℕ) :
    2 * (cullPass conns m cursor).1.length + (cullPass conns m cursor).2.1.length ≤
      2 * conns.length + m.length := by
  induction conns, m, cursor using cullPass.induct with
  | case1 conns m cursor hfind =>
    unfold cullPass
    rw [hfind]
  | case2 conns m cursor k nd hfind hcull p m2 ih =>
    unfold cullPass
    rw [hfind]
    simp only [if_pos hcull]
    have hm := nmFirstKeyGE_mem m cursor k nd hfind
    have hcont := nmFind_isSome_of_mem m k nd hm.1
    have hcont2 := nmFind_removeConns_isSome conns m k k hcont
    have hrc := removeConns_le conns m k 0
    have herase := length_nmErase_isSome (removeConnectionsToNeuron conns m k).2 k hcont2
    unfold m2 p at ih
    omega
  | case3 conns m cursor k nd hfind hcull ih =>
    unfold cullPass
    rw [hfind]
    simp only [if_neg hcull]
    exact ih

lemma cullPass_true_lt (conns : List Gene) (m : NodeMap) (cursor : ℕ)
    (c' : List Gene) (m' : NodeMap)
    (h : cullPass conns m cursor = (c', m', true)) :
    2 * c'.length + m'.length < 2 * conns.length + m.length := by
  induction conns, m, cursor using cullPass.induct with
  | case1 conns m cursor hfind =>
    unfold cullPass at h
    rw [hfind] at h
    simp at h
  | case2 conns m cursor k nd hfind hcull p m2 ih =>
    unfold cullPass at h
    rw [hfind] at h
    simp only [if_pos hcull] at h
    simp only [Prod.mk.injEq] at h
    obtain ⟨h1, h2, -⟩ := h
    subst h1
    subst h2
    have hle := cullPass_le (removeConnectionsToNeuron conns m k).1
      (nmErase (removeConnectionsToNeuron conns m k).2 k) (k + 1)
    have hm := nmFirstKeyGE_mem m cursor k nd hfind
    have hcont := nmFind_isSome_of_mem m k nd hm.1
    have hcont2 := nmFind_removeConns_isSome conns m k k hcont
    have hrc := removeConns_le conns m k 0
    have herase := length_nmErase_isSome (removeConnectionsToNeuron conns m k).2 k hcont2
    omega
  | case3 conns m cursor k nd hfind hcull ih =>
    unfold cullPass at h
    rw [hfind] at h
    simp only [if_neg hcull] at h
    exact ih h

lemma cullPass_false_eq (conns : List Gene) (m : NodeMap) (cursor : ℕ)
    (c' : List Gene) (m' : NodeMap)
    (h : cullPass conns m cursor = (c', m', false)) : c' = conns ∧ m' = m := by
  induction conns, m, cursor using cullPass.induct with
  | case1 conns m cursor hfind =>
    unfold cullPass at h
    rw [hfind] at h
    simp only [Prod.mk.injEq] at h
    exact ⟨h.1.symm, h.2.1.symm⟩
  | case2 conns m cursor k nd hfind hcull p m2 ih =>
    unfold cullPass at h
    rw [hfind] at h
    simp only [if_pos hcull] at h
    simp only [Prod.mk.injEq] at h
    exact absurd h.2.2 (by simp)
  | case3 conns m cursor k nd hfind hcull ih =>
    unfold cullPass at h
    rw [hfind] at h
    simp only [if_neg hcull] at h
    exact ih h

lemma cullPass_eq_none (conns : List Gene) (m : NodeMap) (cursor : ℕ)
    (h : nmFirstKeyGE m cursor = none) : cullPass conns m cursor = (conns, m, false) := by
  unfold cullPass
  rw [h]

lemma cullPass_eq_skip (conns : List Gene) (m : NodeMap) (cursor : ℕ) (k : ℕ) (nd : Node)
    (h : nmFirstKeyGE m cursor = some (k, nd)) (hne : ¬nd.numOutputs = nd.numSelfInputs) :
    cullPass conns m cursor = cullPass conns m (k + 1) := by
  conv_lhs => unfold cullPass
  rw [h]
  simp only [if_neg hne]

/-- `cullUselessNeurons(connections, nodeMap)`: repeat the scan until a full
pass erases nothing (`allDone`). -/
def cullUselessNeurons (conns : List Gene) (m : NodeMap) : List Gene × NodeMap :=
  let q := cullPass conns m 0
  if hq : q.2.2 then cullUselessNeurons q.1 q.2.1 else (q.1, q.2.1)
termination_by 2 * conns.length + m.length
decreasing_by
  exact cullPass_true_lt conns m 0 q.1 q.2.1 (by rw [← hq])

lemma cullUselessNeurons_eq_done (conns : List Gene) (m : NodeMap)
    (h : (cullPass conns m 0).2.2 = false) :
    cullUselessNeurons conns m = ((cullPass conns m 0).1, (cullPass conns m 0).2.1) := by
  unfold cullUselessNeurons
  simp only [h]
  simp

lemma cullUselessNeurons_eq_repeat (conns : List Gene) (m : NodeMap)
    (h : (cullPass conns m 0).2.2 = true) :
    cullUselessNeurons conns m = cullUselessNeurons (cullPass conns m 0).1 (cullPass conns m 0).2.1 := by
  conv_lhs => unfold cullUselessNeurons
  simp only [h]
  simp

/-- Renumber the surviving neurons sequentially from zero in map iteration
order (`node.second.remappedNumber = newNumber++` with a `uint16_t`
counter). -/
def assignRemapped (m : NodeMap) : NodeMap :=
  m.enum.map (fun e => (e.2.1, { e.2.2 with remappedNumber := e.1 % 65536 }))

/-- First wiring pass: connections from a sensor or neuron to a neuron;
the sink number (and a neuron source number) is replaced by the remapped
number, read through `operator[]` (whose map state is threaded), and stored
into the 7-bit field. -/
def emitNeuronConns : List Gene → NodeMap → List Gene × NodeMap
  | [], m => ([], m)
  | c :: rest, m =>
    if c.sinkType = NEURON then
      let p1 := nmIndexRef m c.sinkNum
      let c1 : Gene := { c with sinkNum := p1.2.remappedNumber % 128 }
      let p2 : NodeMap × Gene :=
        if c1.sourceType = NEURON then
          let q := nmIndexRef p1.1 c1.sourceNum
          (q.1, { c1 with sourceNum := q.2.remappedNumber % 128 })
        else (p1.1, c1)
      let r := emitNeuronConns rest p2.1
      (p2.2 :: r.1, r.2)
    else
      emitNeuronConns rest m

/-- Second wiring pass: connections from a sensor or neuron to an action. -/
def emitActionConns : List Gene → NodeMap → List Gene × NodeMap
  | [], m => ([], m)
  | c :: rest, m =>
    if c.sinkType = ACTION then
      let p2 : NodeMap × Gene :=
        if c.sourceType = NEURON then
          let q := nmIndexRef m c.sourceNum
          (q.1, { c with sourceNum := q.2.remappedNumber % 128 })
        else (m, c)
      let r := emitActionConns rest p2.1
      (p2.2 :: r.1, r.2)
    else
      emitActionConns rest m

structure Neuron where
  output : ℚ
  driven : Bool
deriving DecidableEq, Repr

structure NeuralNet where
  connections : List Gene
  neurons : List Neuron
deriving DecidableEq, Repr

def initialNeuronOutput : ℚ := 1 / 2

/-- The neuron-creation loop of `createWiringFromGenome`:
`for (neuronNum = 0; neuronNum < nodeMap.size(); ++neuronNum)` where the
body reads `nodeMap[neuronNum]` through `operator[]`, which default-inserts
a zeroed node when `neuronNum` is not an original key, growing the map the
loop condition re-reads.  Every key is below 128 (7-bit fields), so the
index always catches up with the size within 129 iterations; the first
argument is that fuel. -/
def buildNeuronsLoop : ℕ → NodeMap → ℕ → List Neuron → List Neuron × NodeMap
  | 0, m, _, acc => (acc, m)
  | fuel + 1, m, neuronNum, acc =>
    if neuronNum < m.length then
      let p := nmIndexRef m neuronNum
      buildNeuronsLoop fuel p.1 (neuronNum + 1)
        (acc ++ [{ output := initialNeuronOutput,
                   driven := p.2.numInputsFromSensorsOrOtherNeurons ≠ 0 }])
    else (acc, m)

/-- `Individual::createWiringFromGenome()`: renumber, build the node map,
cull, renumber survivors, emit the two wiring passes, and create the neuron
state list. -/
def createWiringFromGenome (maxN : ℕ) (genome : List Gene) : NeuralNet :=
  let connectionList := makeRenumberedConnectionList maxN genome
  let nodeMap := makeNodeList connectionList
  let culled := cullUselessNeurons connectionList nodeMap
  let nodeMap2 := assignRemapped culled.2
  let pa := emitNeuronConns culled.1 nodeMap2
  let pb := emitActionConns culled.1 pa.2
  let nr := buildNeuronsLoop 129 pb.2 0 []
  { connections := pa.1 ++ pb.1, neurons := nr.1 }

/-! ### Claim C6: two-pass emission ordering -/

lemma emitNeuronConns_sink (conns : List Gene) (m : NodeMap) :
    ∀ c ∈ (emitNeuronConns conns m).1, c.sinkType = NEURON := by
  induction conns generalizing m with
  | nil => simp [emitNeuronConns]
  | cons c rest ih =>
    unfold emitNeuronConns
    split
    · rename_i hsink
      intro c' hc'
      simp only [List.mem_cons] at hc'
      rcases hc' with he | ht
      · subst he
        split
        · exact hsink
        · exact hsink
      · exact ih _ c' ht
    · exact ih m

lemma emitActionConns_sink (conns : List Gene) (m : NodeMap) :
    ∀ c ∈ (emitActionConns conns m).1, c.sinkType = ACTION := by
  induction conns generalizing m with
  | nil => simp [emitActionConns]
  | cons c rest ih =>
    unfold emitActionConns
    split
    · rename_i hsink
      intro c' hc'
      simp only [List.mem_cons] at hc'
      rcases hc' with he | ht
      · subst he
        split
        · exact hsink
        · exact hsink
      · exact ih _ c' ht
    · exact ih m

def defaultGene : Gene := ⟨0, 0, 0, 0, 0⟩

/-- **C6.** In every `NeuralNet` produced by `createWiringFromGenome`,
every connection whose sink is a neuron appears in `connections` before
every connection whose sink is an action. -/
theorem C6_connection_order (maxN : ℕ) (genome : List Gene) (i j : ℕ)
    (hi : i < (createWiringFromGenome maxN genome).connections.length)
    (hj : j < (createWiringFromGenome maxN genome).connections.length)
    (hni : ((createWiringFromGenome maxN genome).connections.getD i defaultGene).sinkType = NEURON)
    (haj : ((createWiringFromGenome maxN genome).connections.getD j defaultGene).sinkType = ACTION) :
    i < j := by
  have hsplit : (createWiringFromGenome maxN genome).connections =
      (emitNeuronConns (cullUselessNeurons (makeRenumberedConnectionList maxN genome)
          (makeNodeList (makeRenumberedConnectionList maxN genome))).1
        (assignRemapped (cullUselessNeurons (makeRenumberedConnectionList maxN genome)
          (makeNodeList (makeRenumberedConnectionList maxN genome))).2)).1 ++
      (emitActionConns (cullUselessNeurons (makeRenumberedConnectionList maxN genome)
          (makeNodeList (makeRenumberedConnectionList maxN genome))).1
        (emitNeuronConns (cullUselessNeurons (makeRenumberedConnectionList maxN genome)
          (makeNodeList (makeRenumberedConnectionList maxN genome))).1
        (assignRemapped (cullUselessNeurons (makeRenumberedConnectionList maxN genome)
          (makeNodeList (makeRenumberedConnectionList maxN genome))).2)).2).1 := rfl
  set A := (emitNeuronConns (cullUselessNeurons (makeRenumberedConnectionList maxN genome)
      (makeNodeList (makeRenumberedConnectionList maxN genome))).1
      (assignRemapped (cullUselessNeurons (makeRenumberedConnectionList maxN genome)
        (makeNodeList (makeRenumberedConnectionList maxN genome))).2)) with hA
  set B := (emitActionConns (cullUselessNeurons (makeRenumberedConnectionList maxN genome)
      (makeNodeList (makeRenumberedConnectionList maxN genome))).1 A.2) with hB
  rw [hsplit] at hi hj hni haj
  by_cases hia : i < A.1.length
  · by_cases hja : j < A.1.length
    · exfalso
      rw [List.getD_eq_getElem _ _ hj] at haj
      have hjA : (A.1 ++ B.1)[j] ∈ A.1 := by
        rw [List.getElem_append_left hja]
        exact List.getElem_mem _
      have := emitNeuronConns_sink _ _ _ hjA
      rw [haj] at this
      simp [ACTION, NEURON] at this
    · omega
  · exfalso
    rw [List.getD_eq_getElem _ _ hi] at hni
    have hiB : (A.1 ++ B.1)[i] ∈ B.1 := by
      rw [List.getElem_append_right (by omega)]
      exact List.getElem_mem _
    have := emitActionConns_sink _ _ _ hiB
    rw [hni] at this
    simp [ACTION, NEURON] at this

/-- `createWiringFromGenome` with its let-bindings expanded (definitional). -/
lemma createWiring_eq (maxN : ℕ) (genome : List Gene) :
    createWiringFromGenome maxN genome =
      { connections :=
          (emitNeuronConns (cullUselessNeurons (makeRenumberedConnectionList maxN genome)
              (makeNodeList (makeRenumberedConnectionList maxN genome))).1
            (assignRemapped (cullUselessNeurons (makeRenumberedConnectionList maxN genome)
              (makeNodeList (makeRenumberedConnectionList maxN genome))).2)).1 ++
          (emitActionConns (cullUselessNeurons (makeRenumberedConnectionList maxN genome)
              (makeNodeList (makeRenumberedConnectionList maxN genome))).1
            (emitNeuronConns (cullUselessNeurons (makeRenumberedConnectionList maxN genome)
              (makeNodeList (makeRenumberedConnectionList maxN genome))).1
            (assignRemapped (cullUselessNeurons (makeRenumberedConnectionList maxN genome)
              (makeNodeList (makeRenumberedConnectionList maxN genome))).2)).2).1,
        neurons :=
          (buildNeuronsLoop 129
            (emitActionConns (cullUselessNeurons (makeRenumberedConnectionList maxN genome)
              (makeNodeList (makeRenumberedConnectionList maxN genome))).1
            (emitNeuronConns (cullUselessNeurons (makeRenumberedConnectionList maxN genome)
              (makeNodeList (makeRenumberedConnectionList maxN genome))).1
            (assignRemapped (cullUselessNeurons (makeRenumberedConnectionList maxN genome)
              (makeNodeList (makeRenumberedConnectionList maxN genome))).2)).2).2 0 []).1 } :=
  rfl

/-- A genome with genes `SENSOR 0 → NEURON 1` and `NEURON 1 → ACTION 0`,
a minimal network whose single surviving neuron keeps original number 1. -/
def c3Genome : List Gene := [⟨SENSOR, 0, NEURON, 1, 1⟩, ⟨NEURON, 1, ACTION, 0, 1⟩]

lemma c3_cullPass :
    cullPass (makeRenumberedConnectionList 5 c3Genome)
      (makeNodeList (makeRenumberedConnectionList 5 c3Genome)) 0 =
      (makeRenumberedConnectionList 5 c3Genome,
        makeNodeList (makeRenumberedConnectionList 5 c3Genome), false) := by
  rw [cullPass_eq_skip _ _ 0 1 ⟨0, 1, 0, 1⟩ (by decide) (by decide)]
  exact cullPass_eq_none _ _ 2 (by decide)

lemma c3_cull :
    cullUselessNeurons (makeRenumberedConnectionList 5 c3Genome)
      (makeNodeList (makeRenumberedConnectionList 5 c3Genome)) =
      (makeRenumberedConnectionList 5 c3Genome,
        makeNodeList (makeRenumberedConnectionList 5 c3Genome)) := by
  rw [cullUselessNeurons_eq_done _ _ (by rw [c3_cullPass]), c3_cullPass]

lemma c3_eval :
    createWiringFromGenome 5 c3Genome =
      { connections := [⟨SENSOR, 0, NEURON, 0, 1⟩, ⟨NEURON, 0, ACTION, 0, 1⟩],
        neurons := [⟨1 / 2, false⟩, ⟨1 / 2, true⟩] } := by
  rw [createWiring_eq, c3_cull]
  rfl

/-- Witness for C6: a genome producing one neuron-sink and one action-sink
connection; the neuron-sink one comes first. -/
theorem C6_connection_order_witness : (0 : ℕ) < 1 := by
  have hconns : (createWiringFromGenome 5 c3Genome).connections =
      [⟨SENSOR, 0, NEURON, 0, 1⟩, ⟨NEURON, 0, ACTION, 0, 1⟩] :=
    congrArg NeuralNet.connections c3_eval
  exact C6_connection_order 5 c3Genome 0 1 (by rw [hconns]; norm_num)
    (by rw [hconns]; norm_num) (by rw [hconns]; rfl) (by rw [hconns]; rfl)

/-! ### Claim C3: the `driven` flag -/

/-- **C3.**  The claim states that in the compiled network `neurons[i].driven`
is true iff some emitted connection has neuron `i` as sink with a sensor or
different-neuron source.  The code indexes the node map by the *new*
sequential neuron number (`nodeMap[neuronNum]` in the neuron-creation
loop), while the map is keyed by *original* neuron numbers, so whenever the
surviving keys are not exactly `0..k-1` the flags land on the wrong
entries.  At the failing input `c3Genome` (one neuron with original number
1, remapped to 0, fed by a sensor), the emitted connection
`SENSOR 0 → NEURON 0` exists, so the claim requires `neurons[0].driven =
true`, but the code produces `driven = false` (and a spurious second neuron
slot): evaluation of the embedded code at the failing input. -/
theorem C3_driven_flag :
    ((createWiringFromGenome 5 c3Genome).connections.getD 0 defaultGene).sinkType = NEURON ∧
    ((createWiringFromGenome 5 c3Genome).connections.getD 0 defaultGene).sinkNum = 0 ∧
    ((createWiringFromGenome 5 c3Genome).connections.getD 0 defaultGene).sourceType = SENSOR ∧
    ((createWiringFromGenome 5 c3Genome).neurons.getD 0 ⟨0, true⟩).driven = false ∧
    (createWiringFromGenome 5 c3Genome).neurons.length = 2 := by
  rw [c3_eval]
  exact ⟨rfl, rfl, rfl, rfl, rfl⟩

/-! ### Claim C2: reachability of actions after culling -/

/-- A length-`fuel`-bounded search: neuron `i` has a directed path (length
at least 1) through `conns` to some ACTION sink. -/
def reachesActionFuel (conns : List Gene) : ℕ → ℕ → Bool
  | 0, _ => false
  | fuel + 1, i =>
    conns.any (fun c => c.sourceType == NEURON && c.sourceNum == i &&
      (c.sinkType == ACTION || (c.sinkType == NEURON && reachesActionFuel conns fuel c.sinkNum)))

/-- Neuron `i` has a directed path of length at least 1 through `conns` to
some ACTION sink. -/
def ReachesAction (conns : List Gene) (i : ℕ) : Prop :=
  ∃ fuel, reachesActionFuel conns fuel i = true

/-- A genome whose two genes form a two-neuron cycle
`NEURON 0 → NEURON 1 → NEURON 0` feeding no action. -/
def c2Genome : List Gene := [⟨NEURON, 0, NEURON, 1, 1⟩, ⟨NEURON, 1, NEURON, 0, 1⟩]

lemma c2_cullPass :
    cullPass (makeRenumberedConnectionList 5 c2Genome)
      (makeNodeList (makeRenumberedConnectionList 5 c2Genome)) 0 =
      (makeRenumberedConnectionList 5 c2Genome,
        makeNodeList (makeRenumberedConnectionList 5 c2Genome), false) := by
  rw [cullPass_eq_skip _ _ 0 0 ⟨0, 1, 0, 1⟩ (by decide) (by decide)]
  rw [cullPass_eq_skip _ _ 1 1 ⟨0, 1, 0, 1⟩ (by decide) (by decide)]
  exact cullPass_eq_none _ _ 2 (by decide)

lemma c2_cull :
    cullUselessNeurons (makeRenumberedConnectionList 5 c2Genome)
      (makeNodeList (makeRenumberedConnectionList 5 c2Genome)) =
      (makeRenumberedConnectionList 5 c2Genome,
        makeNodeList (makeRenumberedConnectionList 5 c2Genome)) := by
  rw [cullUselessNeurons_eq_done _ _ (by rw [c2_cullPass]), c2_cullPass]

lemma c2_eval :
    createWiringFromGenome 5 c2Genome =
      { connections := [⟨NEURON, 0, NEURON, 1, 1⟩, ⟨NEURON, 1, NEURON, 0, 1⟩],
        neurons := [⟨1 / 2, true⟩, ⟨1 / 2, true⟩] } := by
  rw [createWiring_eq, c2_cull]
  rfl

lemma c2_noreach : ∀ fuel : ℕ,
    reachesActionFuel [(⟨NEURON, 0, NEURON, 1, 1⟩ : Gene), ⟨NEURON, 1, NEURON, 0, 1⟩] fuel 0 = false ∧
    reachesActionFuel [(⟨NEURON, 0, NEURON, 1, 1⟩ : Gene), ⟨NEURON, 1, NEURON, 0, 1⟩] fuel 1 = false := by
  intro fuel
  induction fuel with
  | zero => exact ⟨rfl, rfl⟩
  | succ fuel ih =>
    unfold reachesActionFuel
    simp only [NEURON, ACTION] at ih ⊢
    simp [List.any, ih.1, ih.2]

/-- **C2 counterexample.**  The claim asserts that after compilation every
neuron of the output network has a directed path through the emitted
connections to some ACTION sink.  On the two-neuron cycle genome
`c2Genome`, both neurons survive culling (each has a non-self output), yet
no connection ever reaches an action: neuron 0 is present (it is the sink
of an emitted connection) but has no path to any ACTION sink. -/
theorem C2_reachability_counterexample :
    (∃ c ∈ (createWiringFromGenome 5 c2Genome).connections,
      c.sinkType = NEURON ∧ c.sinkNum = 0) ∧
    ¬ ReachesAction (createWiringFromGenome 5 c2Genome).connections 0 := by
  have hconns : (createWiringFromGenome 5 c2Genome).connections =
      [⟨NEURON, 0, NEURON, 1, 1⟩, ⟨NEURON, 1, NEURON, 0, 1⟩] :=
    congrArg NeuralNet.connections c2_eval
  constructor
  · rw [hconns]
    exact ⟨⟨NEURON, 1, NEURON, 0, 1⟩, by simp, rfl, rfl⟩
  · rintro ⟨fuel, hf⟩
    rw [hconns] at hf
    rw [(c2_noreach fuel).1] at hf
    exact Bool.false_ne_true hf

/-! ## Grid and survival criteria (include/grid.h, src/src/survival-criteria.cpp)

The grid is a `W x H` array of `uint16_t`: `EMPTY = 0`, `BARRIER = 0xffff`,
otherwise an agent index; it also carries the barrier-center list. -/

def BARRIER : ℕ := 65535

structure SimGrid where
  sizeX : ℕ
  sizeY : ℕ
  cells : Coordinate → ℕ
  barrierCenters : List Coordinate

/-- `Grid::isInBounds`. -/
def SimGrid.isInBounds (g : SimGrid) (c : Coordinate) : Bool :=
  decide (0 ≤ c.x) && decide (c.x < (g.sizeX : ℤ)) &&
  decide (0 ≤ c.y) && decide (c.y < (g.sizeY : ℤ))

/-- `Grid::isOccupiedAt`: neither empty nor barrier. -/
def SimGrid.isOccupiedAt (g : SimGrid) (c : Coordinate) : Bool :=
  decide (g.cells c ≠ 0) && decide (g.cells c ≠ BARRIER)

/-- `Grid::isBorder`. -/
def SimGrid.isBorder (g : SimGrid) (c : Coordinate) : Bool :=
  decide (c.x = 0) || decide (c.x = (g.sizeX : ℤ) - 1) ||
  decide (c.y = 0) || decide (c.y = (g.sizeY : ℤ) - 1)

abbrev CHALLENGE_CIRCLE : ℕ := 0
abbrev CHALLENGE_RIGHT_HALF : ℕ := 1
abbrev CHALLENGE_RIGHT_QUARTER : ℕ := 2
abbrev CHALLENGE_STRING : ℕ := 3
abbrev CHALLENGE_CENTER_WEIGHTED : ℕ := 4
abbrev CHALLENGE_CENTER_UNWEIGHTED : ℕ := 40
abbrev CHALLENGE_CORNER : ℕ := 5
abbrev CHALLENGE_CORNER_WEIGHTED : ℕ := 6
abbrev CHALLENGE_MIGRATE_DISTANCE : ℕ := 7
abbrev CHALLENGE_CENTER_SPARSE : ℕ := 8
abbrev CHALLENGE_LEFT_EIGHTH : ℕ := 9
abbrev CHALLENGE_RADIOACTIVE_WALLS : ℕ := 10
abbrev CHALLENGE_AGAINST_ANY_WALL : ℕ := 11
abbrev CHALLENGE_TOUCH_ANY_WALL : ℕ := 12
abbrev CHALLENGE_EAST_WEST_EIGHTHS : ℕ := 13
abbrev CHALLENGE_NEAR_BARRIER : ℕ := 14
abbrev CHALLENGE_PAIRS : ℕ := 15
abbrev CHALLENGE_LOCATION_SEQUENCE : ℕ := 16
abbrev CHALLENGE_ALTRUISM : ℕ := 17
abbrev CHALLENGE_ALTRUISM_SACRIFICE : ℕ := 18

/-! ## Individual (include/indiv.h, src/src/indiv.cpp) -/

structure Individual where
  alive : Bool
  index : ℕ
  loc : Coordinate
  birthLoc : Coordinate
  age : ℕ
  genome : List Gene
  nnet : NeuralNet
  responsiveness : ℚ
  oscPeriod : ℕ
  longProbeDist : ℕ
  lastMoveDir : Dir
  challengeBits : ℕ
deriving Repr

/-- The 3x3 cell block scanned by the CHALLENGE_PAIRS loops around a
location (`x` outer, `y` inner, both ascending; `int16_t` loop variables). -/
def pairsCells (loc : Coordinate) : List Coordinate :=
  (intRange (loc.x - 1) (loc.x + 1)).flatMap
    (fun x => (intRange (loc.y - 1) (loc.y + 1)).map (fun y => mkCoord x y))

/-- The inner CHALLENGE_PAIRS scan: does the found neighbor `tloc` have any
in-bounds occupied neighbor other than itself and the scanning agent? -/
def pairsHasOther (g : SimGrid) (selfLoc tloc : Coordinate) : Bool :=
  (pairsCells tloc).any
    (fun c => c != tloc && c != selfLoc && g.isInBounds c && g.isOccupiedAt c)

/-- The outer CHALLENGE_PAIRS loop: scan the 3x3 block, counting in-bounds
occupied neighbors of the agent; on the first one, an early
`return {false, 0.0}` fires if it has another neighbor; on a second one,
an early return fires unconditionally.  The `Option` carries an early
return; the `ℕ` is the final count. -/
def pairsScan (g : SimGrid) (selfLoc : Coordinate) :
    List Coordinate → ℕ → Option (Bool × ℚ) × ℕ
  | [], count => (none, count)
  | c :: rest, count =>
    if c ≠ selfLoc ∧ g.isInBounds c = true ∧ g.isOccupiedAt c = true then
      if count + 1 = 1 then
        if pairsHasOther g selfLoc c then (some (false, 0), count + 1)
        else pairsScan g selfLoc rest (count + 1)
      else (some (false, 0), count + 1)
    else pairsScan g selfLoc rest count

/-- `passedSurvivalCriterion(indiv, challenge)`
(src/src/survival-criteria.cpp): pass/fail plus a fitness score.  Dead
agents fail with score 0.  Distances use `Coordinate::length` (an integer)
and are compared and scaled in exact rational arithmetic, the idealized
value of the source's float expressions. -/
def passedSurvivalCriterion (g : SimGrid) (indiv : Individual) (challenge : ℕ) : Bool × ℚ :=
  if indiv.alive = false then (false, 0)
  else if challenge = CHALLENGE_CIRCLE then
    let safeCenter : Coordinate := ⟨(g.sizeX / 4 : ℕ), (g.sizeY / 4 : ℕ)⟩
    let radius : ℚ := (g.sizeX : ℚ) / 4
    let distance : ℚ := ((safeCenter - indiv.loc).length : ℚ)
    if distance ≤ radius then (true, (radius - distance) / radius) else (false, 0)
  else if challenge = CHALLENGE_RIGHT_HALF then
    if ((g.sizeX / 2 : ℕ) : ℤ) < indiv.loc.x then (true, 1) else (false, 0)
  else if challenge = CHALLENGE_RIGHT_QUARTER then
    if ((g.sizeX / 2 + g.sizeX / 4 : ℕ) : ℤ) < indiv.loc.x then (true, 1) else (false, 0)
  else if challenge = CHALLENGE_STRING then
    let minNeighbors : ℕ := 2
    let maxNeighbors : ℕ := 22
    if g.isBorder indiv.loc then (false, 0)
    else
      let count := (visitList g.sizeX g.sizeY indiv.loc (3 / 2)).countP (fun c => g.isOccupiedAt c)
      if minNeighbors ≤ count ∧ count ≤ maxNeighbors then (true, 1) else (false, 0)
  else if challenge = CHALLENGE_CENTER_WEIGHTED then
    let safeCenter : Coordinate := ⟨(g.sizeX / 2 : ℕ), (g.sizeY / 2 : ℕ)⟩
    let radius : ℚ := (g.sizeX : ℚ) / 3
    let distance : ℚ := ((safeCenter - indiv.loc).length : ℚ)
    if distance ≤ radius then (true, (radius - distance) / radius) else (false, 0)
  else if challenge = CHALLENGE_CENTER_UNWEIGHTED then
    let safeCenter : Coordinate := ⟨(g.sizeX / 2 : ℕ), (g.sizeY / 2 : ℕ)⟩
    let radius : ℚ := (g.sizeX : ℚ) / 3
    let distance : ℚ := ((safeCenter - indiv.loc).length : ℚ)
    if distance ≤ radius then (true, 1) else (false, 0)
  else if challenge = CHALLENGE_CENTER_SPARSE then
    let safeCenter : Coordinate := ⟨(g.sizeX / 2 : ℕ), (g.sizeY / 2 : ℕ)⟩
    let outerRadius : ℚ := (g.sizeX : ℚ) / 4
    let minNeighbors : ℕ := 5
    let maxNeighbors : ℕ := 8
    let distance : ℚ := ((safeCenter - indiv.loc).length : ℚ)
    if distance ≤ outerRadius then
      let count := (visitList g.sizeX g.sizeY indiv.loc (3 / 2)).countP (fun c => g.isOccupiedAt c)
      if minNeighbors ≤ count ∧ count ≤ maxNeighbors then (true, 1) else (false, 0)
    else (false, 0)
  else if challenge = CHALLENGE_CORNER then
    let radius : ℚ := (g.sizeX : ℚ) / 8
    if ((mkCoord 0 0 - indiv.loc).length : ℚ) ≤ radius then (true, 1)
    else if ((mkCoord 0 ((g.sizeY : ℤ) - 1) - indiv.loc).length : ℚ) ≤ radius then (true, 1)
    else if ((mkCoord ((g.sizeX : ℤ) - 1) 0 - indiv.loc).length : ℚ) ≤ radius then (true, 1)
    else if ((mkCoord ((g.sizeX : ℤ) - 1) ((g.sizeY : ℤ) - 1) - indiv.loc).length : ℚ) ≤ radius
      then (true, 1)
    else (false, 0)
  else if challenge = CHALLENGE_CORNER_WEIGHTED then
    let radius : ℚ := (g.sizeX : ℚ) / 4
    let d1 : ℚ := ((mkCoord 0 0 - indiv.loc).length : ℚ)
    let d2 : ℚ := ((mkCoord 0 ((g.sizeY : ℤ) - 1) - indiv.loc).length : ℚ)
    let d3 : ℚ := ((mkCoord ((g.sizeX : ℤ) - 1) 0 - indiv.loc).length : ℚ)
    let d4 : ℚ := ((mkCoord ((g.sizeX : ℤ) - 1) ((g.sizeY : ℤ) - 1) - indiv.loc).length : ℚ)
    if d1 ≤ radius then (true, (radius - d1) / radius)
    else if d2 ≤ radius then (true, (radius - d2) / radius)
    else if d3 ≤ radius then (true, (radius - d3) / radius)
    else if d4 ≤ radius then (true, (radius - d4) / radius)
    else (false, 0)
  else if challenge = CHALLENGE_RADIOACTIVE_WALLS then (true, 1)
  else if challenge = CHALLENGE_AGAINST_ANY_WALL then
    if indiv.loc.x = 0 ∨ indiv.loc.x = (g.sizeX : ℤ) - 1 ∨
        indiv.loc.y = 0 ∨ indiv.loc.y = (g.sizeY : ℤ) - 1 then (true, 1)
    else (false, 0)
  else if challenge = CHALLENGE_TOUCH_ANY_WALL then
    if indiv.challengeBits ≠ 0 then (true, 1) else (false, 0)
  else if challenge = CHALLENGE_MIGRATE_DISTANCE then
    let distance : ℚ := ((indiv.loc - indiv.birthLoc).length : ℚ) / (max g.sizeX g.sizeY : ℕ)
    (true, distance)
  else if challenge = CHALLENGE_EAST_WEST_EIGHTHS then
    if indiv.loc.x < ((g.sizeX / 8 : ℕ) : ℤ) ∨ ((g.sizeX - g.sizeX / 8 : ℕ) : ℤ) ≤ indiv.loc.x
      then (true, 1)
    else (false, 0)
  else if challenge = CHALLENGE_LEFT_EIGHTH then
    if indiv.loc.x < ((g.sizeX / 8 : ℕ) : ℤ) then (true, 1) else (false, 0)
  else if challenge = CHALLENGE_NEAR_BARRIER then
    let radius : ℚ := ((g.sizeX / 2 : ℕ) : ℚ)
    let minDistance : ℚ :=
      g.barrierCenters.foldl (fun md c => min md (((indiv.loc - c).length : ℚ))) 100000000
    if minDistance ≤ radius then (true, 1 - minDistance / radius) else (false, 0)
  else if challenge = CHALLENGE_PAIRS then
    if indiv.loc.x = 0 ∨ indiv.loc.x = (g.sizeX : ℤ) - 1 ∨
        indiv.loc.y = 0 ∨ indiv.loc.y = (g.sizeY : ℤ) - 1 then (false, 0)
    else
      match pairsScan g indiv.loc (pairsCells indiv.loc) 0 with
      | (some r, _) => r
      | (none, count) => if count = 1 then (true, 1) else (false, 0)
  else if challenge = CHALLENGE_LOCATION_SEQUENCE then
    let bits := indiv.challengeBits
    let count := (List.range 32).countP (fun n => decide (bits.testBit n))
    if 0 < count then (true, (count : ℚ) / 32) else (false, 0)
  else if challenge = CHALLENGE_ALTRUISM_SACRIFICE then
    let radius : ℚ := (g.sizeX : ℚ) / 4
    let distance : ℚ :=
      ((mkCoord ((g.sizeX - g.sizeX / 4 : ℕ) : ℤ) ((g.sizeY - g.sizeY / 4 : ℕ) : ℤ) -
        indiv.loc).length : ℚ)
    if distance ≤ radius then (true, (radius - distance) / radius) else (false, 0)
  else if challenge = CHALLENGE_ALTRUISM then
    let safeCenter : Coordinate := ⟨(g.sizeX / 4 : ℕ), (g.sizeY / 4 : ℕ)⟩
    let radius : ℚ := (g.sizeX : ℚ) / 4
    let distance : ℚ := ((safeCenter - indiv.loc).length : ℚ)
    if distance ≤ radius then (true, (radius - distance) / radius) else (false, 0)
  else (false, 0)

def supportedChallenges : List ℕ :=
  [0, 1, 2, 3, 4, 40, 5, 6, 7, 8, 9, 10, 11, 12, 13, 14, 15, 16, 17, 18]

/-! ### Claim C4: survival score range -/

lemma pairsScan_some_eq (g : SimGrid) (s : Coordinate) :
    ∀ (L : List Coordinate) (c0 : ℕ) (r : Bool × ℚ) (c1 : ℕ),
      pairsScan g s L c0 = (some r, c1) → r = (false, 0) := by
  intro L
  induction L with
  | nil =>
    intro c0 r c1 h
    simp [pairsScan] at h
  | cons c rest ih =>
    intro c0 r c1 h
    unfold pairsScan at h
    split_ifs at h with h1 h2 h3
    · simp only [Prod.mk.injEq, Option.some.injEq] at h
      exact h.1.symm
    · exact ih _ _ _ h
    · simp only [Prod.mk.injEq, Option.some.injEq] at h
      exact h.1.symm
    · exact ih _ _ _ h

lemma foldl_min_dist_nonneg (loc : Coordinate) :
    ∀ (L : List Coordinate) (init : ℚ), 0 ≤ init →
      0 ≤ L.foldl (fun md c => min md (((loc - c).length : ℚ))) init := by
  intro L
  induction L with
  | nil => intro init h; simpa using h
  | cons c rest ih =>
    intro init h
    simp only [List.foldl_cons]
    exact ih _ (le_min h (by positivity))

/-- The distance-weighted scoring pattern shared by several challenge
branches: pass with score `(radius - distance) / radius` when within
`radius`, else fail with score 0.  Definitionally equal to each such
branch of `passedSurvivalCriterion`. -/
def weightedScore (radius distance : ℚ) : Bool × ℚ :=
  if distance ≤ radius then (true, (radius - distance) / radius) else (false, 0)

lemma weightedScore_bounds (radius distance : ℚ) (hR : 0 ≤ radius) (hD : 0 ≤ distance) :
    0 ≤ (weightedScore radius distance).2 ∧ (weightedScore radius distance).2 ≤ 1 := by
  unfold weightedScore
  split_ifs with h
  · exact ⟨div_nonneg (sub_nonneg.mpr h) hR, div_le_one_of_le (sub_le_self _ hD) hR⟩
  · norm_num

lemma psc_dead (g : SimGrid) (i : Individual) (ch : ℕ) (h : i.alive = false) :
    passedSurvivalCriterion g i ch = (false, 0) := by
  unfold passedSurvivalCriterion
  rw [if_pos h]

lemma psc_eq_circle (g : SimGrid) (i : Individual) (h : ¬i.alive = false) :
    passedSurvivalCriterion g i CHALLENGE_CIRCLE =
      weightedScore ((g.sizeX : ℚ) / 4)
        (((⟨(g.sizeX / 4 : ℕ), (g.sizeY / 4 : ℕ)⟩ : Coordinate) - i.loc).length : ℚ) := by
  unfold passedSurvivalCriterion
  rw [if_neg h]
  rfl

lemma psc_eq_rightHalf (g : SimGrid) (i : Individual) (h : ¬i.alive = false) :
    passedSurvivalCriterion g i CHALLENGE_RIGHT_HALF =
      if ((g.sizeX / 2 : ℕ) : ℤ) < i.loc.x then ((true, 1) : Bool × ℚ) else (false, 0) := by
  unfold passedSurvivalCriterion
  rw [if_neg h]
  rfl

lemma psc_eq_rightQuarter (g : SimGrid) (i : Individual) (h : ¬i.alive = false) :
    passedSurvivalCriterion g i CHALLENGE_RIGHT_QUARTER =
      if ((g.sizeX / 2 + g.sizeX / 4 : ℕ) : ℤ) < i.loc.x then ((true, 1) : Bool × ℚ)
      else (false, 0) := by
  unfold passedSurvivalCriterion
  rw [if_neg h]
  rfl

lemma psc_eq_string (g : SimGrid) (i : Individual) (h : ¬i.alive = false) :
    passedSurvivalCriterion g i CHALLENGE_STRING =
      if g.isBorder i.loc then ((false, 0) : Bool × ℚ)
      else if 2 ≤ (visitList g.sizeX g.sizeY i.loc (3 / 2)).countP (fun c => g.isOccupiedAt c) ∧
          (visitList g.sizeX g.sizeY i.loc (3 / 2)).countP (fun c => g.isOccupiedAt c) ≤ 22
        then (true, 1) else (false, 0) := by
  unfold passedSurvivalCriterion
  rw [if_neg h]
  rfl

lemma psc_eq_centerWeighted (g : SimGrid) (i : Individual) (h : ¬i.alive = false) :
    passedSurvivalCriterion g i CHALLENGE_CENTER_WEIGHTED =
      weightedScore ((g.sizeX : ℚ) / 3)
        (((⟨(g.sizeX / 2 : ℕ), (g.sizeY / 2 : ℕ)⟩ : Coordinate) - i.loc).length : ℚ) := by
  unfold passedSurvivalCriterion
  rw [if_neg h]
  rfl

lemma psc_eq_centerUnweighted (g : SimGrid) (i : Individual) (h : ¬i.alive = false) :
    passedSurvivalCriterion g i CHALLENGE_CENTER_UNWEIGHTED =
      if (((⟨(g.sizeX / 2 : ℕ), (g.sizeY / 2 : ℕ)⟩ : Coordinate) - i.loc).length : ℚ) ≤
          (g.sizeX : ℚ) / 3 then ((true, 1) : Bool × ℚ)
      else (false, 0) := by
  unfold passedSurvivalCriterion
  rw [if_neg h]
  rfl

lemma psc_eq_centerSparse (g : SimGrid) (i : Individual) (h : ¬i.alive = false) :
    passedSurvivalCriterion g i CHALLENGE_CENTER_SPARSE =
      if (((⟨(g.sizeX / 2 : ℕ), (g.sizeY / 2 : ℕ)⟩ : Coordinate) - i.loc).length : ℚ) ≤
          (g.sizeX : ℚ) / 4 then
        if 5 ≤ (visitList g.sizeX g.sizeY i.loc (3 / 2)).countP (fun c => g.isOccupiedAt c) ∧
            (visitList g.sizeX g.sizeY i.loc (3 / 2)).countP (fun c => g.isOccupiedAt c) ≤ 8
          then ((true, 1) : Bool × ℚ) else (false, 0)
      else (false, 0) := by
  unfold passedSurvivalCriterion
  rw [if_neg h]
  rfl

lemma psc_eq_corner (g : SimGrid) (i : Individual) (h : ¬i.alive = false) :
    passedSurvivalCriterion g i CHALLENGE_CORNER =
      if ((mkCoord 0 0 - i.loc).length : ℚ) ≤ (g.sizeX : ℚ) / 8 then ((true, 1) : Bool × ℚ)
      else if ((mkCoord 0 ((g.sizeY : ℤ) - 1) - i.loc).length : ℚ) ≤ (g.sizeX : ℚ) / 8
        then (true, 1)
      else if ((mkCoord ((g.sizeX : ℤ) - 1) 0 - i.loc).length : ℚ) ≤ (g.sizeX : ℚ) / 8
        then (true, 1)
      else if ((mkCoord ((g.sizeX : ℤ) - 1) ((g.sizeY : ℤ) - 1) - i.loc).length : ℚ) ≤
          (g.sizeX : ℚ) / 8 then (true, 1)
      else (false, 0) := by
  unfold passedSurvivalCriterion
  rw [if_neg h]
  rfl

lemma psc_eq_cornerWeighted (g : SimGrid) (i : Individual) (h : ¬i.alive = false) :
    passedSurvivalCriterion g i CHALLENGE_CORNER_WEIGHTED =
      if ((mkCoord 0 0 - i.loc).length : ℚ) ≤ (g.sizeX : ℚ) / 4
        then (true, ((g.sizeX : ℚ) / 4 - ((mkCoord 0 0 - i.loc).length : ℚ)) / ((g.sizeX : ℚ) / 4))
      else if ((mkCoord 0 ((g.sizeY : ℤ) - 1) - i.loc).length : ℚ) ≤ (g.sizeX : ℚ) / 4
        then (true, ((g.sizeX : ℚ) / 4 - ((mkCoord 0 ((g.sizeY : ℤ) - 1) - i.loc).length : ℚ)) /
          ((g.sizeX : ℚ) / 4))
      else if ((mkCoord ((g.sizeX : ℤ) - 1) 0 - i.loc).length : ℚ) ≤ (g.sizeX : ℚ) / 4
        then (true, ((g.sizeX : ℚ) / 4 - ((mkCoord ((g.sizeX : ℤ) - 1) 0 - i.loc).length : ℚ)) /
          ((g.sizeX : ℚ) / 4))
      else weightedScore ((g.sizeX : ℚ) / 4)
        ((mkCoord ((g.sizeX : ℤ) - 1) ((g.sizeY : ℤ) - 1) - i.loc).length : ℚ) := by
  unfold passedSurvivalCriterion
  rw [if_neg h]
  rfl

lemma psc_eq_radioactiveWalls (g : SimGrid) (i : Individual) (h : ¬i.alive = false) :
    passedSurvivalCriterion g i CHALLENGE_RADIOACTIVE_WALLS = (true, 1) := by
  unfold passedSurvivalCriterion
  rw [if_neg h]
  rfl

lemma psc_eq_againstAnyWall (g : SimGrid) (i : Individual) (h : ¬i.alive = false) :
    passedSurvivalCriterion g i CHALLENGE_AGAINST_ANY_WALL =
      if i.loc.x = 0 ∨ i.loc.x = (g.sizeX : ℤ) - 1 ∨
          i.loc.y = 0 ∨ i.loc.y = (g.sizeY : ℤ) - 1 then ((true, 1) : Bool × ℚ)
      else (false, 0) := by
  unfold passedSurvivalCriterion
  rw [if_neg h]
  rfl

lemma psc_eq_touchAnyWall (g : SimGrid) (i : Individual) (h : ¬i.alive = false) :
    passedSurvivalCriterion g i CHALLENGE_TOUCH_ANY_WALL =
      if i.challengeBits ≠ 0 then ((true, 1) : Bool × ℚ) else (false, 0) := by
  unfold passedSurvivalCriterion
  rw [if_neg h]
  rfl

lemma psc_eq_migrateDistance (g : SimGrid) (i : Individual) (h : ¬i.alive = false) :
    passedSurvivalCriterion g i CHALLENGE_MIGRATE_DISTANCE =
      (true, ((i.loc - i.birthLoc).length : ℚ) / (max g.sizeX g.sizeY : ℕ)) := by
  unfold passedSurvivalCriterion
  rw [if_neg h]
  rfl

lemma psc_eq_eastWestEighths (g : SimGrid) (i : Individual) (h : ¬i.alive = false) :
    passedSurvivalCriterion g i CHALLENGE_EAST_WEST_EIGHTHS =
      if i.loc.x < ((g.sizeX / 8 : ℕ) : ℤ) ∨ ((g.sizeX - g.sizeX / 8 : ℕ) : ℤ) ≤ i.loc.x
        then ((true, 1) : Bool × ℚ) else (false, 0) := by
  unfold passedSurvivalCriterion
  rw [if_neg h]
  rfl

lemma psc_eq_leftEighth (g : SimGrid) (i : Individual) (h : ¬i.alive = false) :
    passedSurvivalCriterion g i CHALLENGE_LEFT_EIGHTH =
      if i.loc.x < ((g.sizeX / 8 : ℕ) : ℤ) then ((true, 1) : Bool × ℚ) else (false, 0) := by
  unfold passedSurvivalCriterion
  rw [if_neg h]
  rfl

lemma psc_eq_nearBarrier (g : SimGrid) (i : Individual) (h : ¬i.alive = false) :
    passedSurvivalCriterion g i CHALLENGE_NEAR_BARRIER =
      if g.barrierCenters.foldl (fun md c => min md (((i.loc - c).length : ℚ))) 100000000 ≤
          ((g.sizeX / 2 : ℕ) : ℚ) then
        (true, 1 - g.barrierCenters.foldl (fun md c => min md (((i.loc - c).length : ℚ)))
          100000000 / ((g.sizeX / 2 : ℕ) : ℚ))
      else (false, 0) := by
  unfold passedSurvivalCriterion
  rw [if_neg h]
  rfl

lemma psc_eq_pairs (g : SimGrid) (i : Individual) (h : ¬i.alive = false) :
    passedSurvivalCriterion g i CHALLENGE_PAIRS =
      if i.loc.x = 0 ∨ i.loc.x = (g.sizeX : ℤ) - 1 ∨
          i.loc.y = 0 ∨ i.loc.y = (g.sizeY : ℤ) - 1 then ((false, 0) : Bool × ℚ)
      else
        match pairsScan g i.loc (pairsCells i.loc) 0 with
        | (some r, _) => r
        | (none, count) => if count = 1 then (true, 1) else (false, 0) := by
  unfold passedSurvivalCriterion
  rw [if_neg h]
  rfl

lemma psc_eq_locationSequence (g : SimGrid) (i : Individual) (h : ¬i.alive = false) :
    passedSurvivalCriterion g i CHALLENGE_LOCATION_SEQUENCE =
      if 0 < (List.range 32).countP (fun n => decide (i.challengeBits.testBit n)) then
        (true, ((List.range 32).countP (fun n => decide (i.challengeBits.testBit n)) : ℚ) / 32)
      else (false, 0) := by
  unfold passedSurvivalCriterion
  rw [if_neg h]
  rfl

lemma psc_eq_altruismSacrifice (g : SimGrid) (i : Individual) (h : ¬i.alive = false) :
    passedSurvivalCriterion g i CHALLENGE_ALTRUISM_SACRIFICE =
      weightedScore ((g.sizeX : ℚ) / 4)
        ((mkCoord ((g.sizeX - g.sizeX / 4 : ℕ) : ℤ) ((g.sizeY - g.sizeY / 4 : ℕ) : ℤ) -
          i.loc).length : ℚ) := by
  unfold passedSurvivalCriterion
  rw [if_neg h]
  rfl

lemma psc_eq_altruism (g : SimGrid) (i : Individual) (h : ¬i.alive = false) :
    passedSurvivalCriterion g i CHALLENGE_ALTRUISM =
      weightedScore ((g.sizeX : ℚ) / 4)
        (((⟨(g.sizeX / 4 : ℕ), (g.sizeY / 4 : ℕ)⟩ : Coordinate) - i.loc).length : ℚ) := by
  unfold passedSurvivalCriterion
  rw [if_neg h]
  rfl

/-- **C4 (amended).** For every agent and every supported challenge id, and
grid dimensions in the documented parameter range (`2..0x10000`), the score
returned by `passedSurvivalCriterion` is nonnegative, and is at most 1 for
every challenge EXCEPT `CHALLENGE_MIGRATE_DISTANCE`, whose score
`|loc - birthLoc| / max(W, H)` can exceed 1 (up to about sqrt 2, as the
source's own comment notes: "range [0.0, ~1.41] for diagonal travel").
The original claim that all scores lie in [0, 1] is refuted by
`C4_score_range_counterexample`. -/
theorem C4_score_range (g : SimGrid) (indiv : Individual) (challenge : ℕ)
    (hW : 2 ≤ g.sizeX) (hH : 2 ≤ g.sizeY) (hmem : challenge ∈ supportedChallenges) :
    0 ≤ (passedSurvivalCriterion g indiv challenge).2 ∧
    (challenge ≠ CHALLENGE_MIGRATE_DISTANCE →
      (passedSurvivalCriterion g indiv challenge).2 ≤ 1) := by
  clear hW hH
  by_cases ha : indiv.alive = false
  · rw [psc_dead g indiv challenge ha]
    exact ⟨le_refl 0, fun _ => by norm_num⟩
  simp only [supportedChallenges] at hmem
  fin_cases hmem
  · -- CHALLENGE_CIRCLE
    rw [psc_eq_circle g indiv ha]
    have hb := weightedScore_bounds ((g.sizeX : ℚ) / 4)
      (((⟨(g.sizeX / 4 : ℕ), (g.sizeY / 4 : ℕ)⟩ : Coordinate) - indiv.loc).length : ℚ)
      (by positivity) (by positivity)
    exact ⟨hb.1, fun _ => hb.2⟩
  · -- CHALLENGE_RIGHT_HALF
    rw [psc_eq_rightHalf g indiv ha]
    split_ifs <;> exact ⟨by norm_num, fun _ => by norm_num⟩
  · -- CHALLENGE_RIGHT_QUARTER
    rw [psc_eq_rightQuarter g indiv ha]
    split_ifs <;> exact ⟨by norm_num, fun _ => by norm_num⟩
  · -- CHALLENGE_STRING
    rw [psc_eq_string g indiv ha]
    split_ifs <;> exact ⟨by norm_num, fun _ => by norm_num⟩
  · -- CHALLENGE_CENTER_WEIGHTED
    rw [psc_eq_centerWeighted g indiv ha]
    have hb := weightedScore_bounds ((g.sizeX : ℚ) / 3)
      (((⟨(g.sizeX / 2 : ℕ), (g.sizeY / 2 : ℕ)⟩ : Coordinate) - indiv.loc).length : ℚ)
      (by positivity) (by positivity)
    exact ⟨hb.1, fun _ => hb.2⟩
  · -- CHALLENGE_CENTER_UNWEIGHTED
    rw [psc_eq_centerUnweighted g indiv ha]
    split_ifs <;> exact ⟨by norm_num, fun _ => by norm_num⟩
  · -- CHALLENGE_CORNER
    rw [psc_eq_corner g indiv ha]
    split_ifs <;> exact ⟨by norm_num, fun _ => by norm_num⟩
  · -- CHALLENGE_CORNER_WEIGHTED
    rw [psc_eq_cornerWeighted g indiv ha]
    split_ifs with hd1 hd2 hd3
    · exact ⟨div_nonneg (sub_nonneg.mpr hd1) (by positivity),
        fun _ => div_le_one_of_le (sub_le_self _ (by positivity)) (by positivity)⟩
    · exact ⟨div_nonneg (sub_nonneg.mpr hd2) (by positivity),
        fun _ => div_le_one_of_le (sub_le_self _ (by positivity)) (by positivity)⟩
    · exact ⟨div_nonneg (sub_nonneg.mpr hd3) (by positivity),
        fun _ => div_le_one_of_le (sub_le_self _ (by positivity)) (by positivity)⟩
    · have hb := weightedScore_bounds ((g.sizeX : ℚ) / 4)
        ((mkCoord ((g.sizeX : ℤ) - 1) ((g.sizeY : ℤ) - 1) - indiv.loc).length : ℚ)
        (by positivity) (by positivity)
      exact ⟨hb.1, fun _ => hb.2⟩
  · -- CHALLENGE_MIGRATE_DISTANCE
    rw [psc_eq_migrateDistance g indiv ha]
    exact ⟨by dsimp only; positivity, fun hc => absurd rfl hc⟩
  · -- CHALLENGE_CENTER_SPARSE
    rw [psc_eq_centerSparse g indiv ha]
    split_ifs <;> exact ⟨by norm_num, fun _ => by norm_num⟩
  · -- CHALLENGE_LEFT_EIGHTH
    rw [psc_eq_leftEighth g indiv ha]
    split_ifs <;> exact ⟨by norm_num, fun _ => by norm_num⟩
  · -- CHALLENGE_RADIOACTIVE_WALLS
    rw [psc_eq_radioactiveWalls g indiv ha]
    exact ⟨by norm_num, fun _ => by norm_num⟩
  · -- CHALLENGE_AGAINST_ANY_WALL
    rw [psc_eq_againstAnyWall g indiv ha]
    split_ifs <;> exact ⟨by norm_num, fun _ => by norm_num⟩
  · -- CHALLENGE_TOUCH_ANY_WALL
    rw [psc_eq_touchAnyWall g indiv ha]
    split_ifs <;> exact ⟨by norm_num, fun _ => by norm_num⟩
  · -- CHALLENGE_EAST_WEST_EIGHTHS
    rw [psc_eq_eastWestEighths g indiv ha]
    split_ifs <;> exact ⟨by norm_num, fun _ => by norm_num⟩
  · -- CHALLENGE_NEAR_BARRIER
    rw [psc_eq_nearBarrier g indiv ha]
    split_ifs with hd
    · refine ⟨sub_nonneg.mpr (div_le_one_of_le hd (by positivity)),
        fun _ => sub_le_self _ (div_nonneg ?_ (by positivity))⟩
      exact foldl_min_dist_nonneg indiv.loc g.barrierCenters 100000000 (by norm_num)
    · exact ⟨le_refl 0, fun _ => by norm_num⟩
  · -- CHALLENGE_PAIRS
    rw [psc_eq_pairs g indiv ha]
    split_ifs with he
    · exact ⟨le_refl 0, fun _ => by norm_num⟩
    · rcases hp : pairsScan g indiv.loc (pairsCells indiv.loc) 0 with ⟨o, cnt⟩
      rcases o with _ | r
      · dsimp only
        split_ifs <;> exact ⟨by norm_num, fun _ => by norm_num⟩
      · have hr : r = (false, 0) := pairsScan_some_eq g indiv.loc _ _ _ _ hp
        subst hr
        dsimp only
        exact ⟨le_refl 0, fun _ => by norm_num⟩
  · -- CHALLENGE_LOCATION_SEQUENCE
    rw [psc_eq_locationSequence g indiv ha]
    split_ifs with hc0
    · refine ⟨by dsimp only; positivity, fun _ => ?_⟩
      dsimp only
      refine div_le_one_of_le ?_ (by norm_num)
      exact_mod_cast (List.countP_le_length _).trans_eq (List.length_range 32)
    · exact ⟨le_refl 0, fun _ => by norm_num⟩
  · -- CHALLENGE_ALTRUISM
    rw [psc_eq_altruism g indiv ha]
    have hb := weightedScore_bounds ((g.sizeX : ℚ) / 4)
      (((⟨(g.sizeX / 4 : ℕ), (g.sizeY / 4 : ℕ)⟩ : Coordinate) - indiv.loc).length : ℚ)
      (by positivity) (by positivity)
    exact ⟨hb.1, fun _ => hb.2⟩
  · -- CHALLENGE_ALTRUISM_SACRIFICE
    rw [psc_eq_altruismSacrifice g indiv ha]
    have hb := weightedScore_bounds ((g.sizeX : ℚ) / 4)
      ((mkCoord ((g.sizeX - g.sizeX / 4 : ℕ) : ℤ) ((g.sizeY - g.sizeY / 4 : ℕ) : ℤ) -
        indiv.loc).length : ℚ)
      (by positivity) (by positivity)
    exact ⟨hb.1, fun _ => hb.2⟩

lemma sqrt98_eq : Nat.sqrt 98 = 9 := by
  have lo : 9 ≤ Nat.sqrt 98 := Nat.le_sqrt.mpr (by norm_num)
  have hi : Nat.sqrt 98 < 10 := Nat.sqrt_lt'.mpr (by norm_num)
  omega

/-- An empty 8x8 arena. -/
def c4Grid : SimGrid := ⟨8, 8, fun _ => 0, []⟩

/-- An agent born at the SW corner that reached the NE corner. -/
def c4Indiv : Individual :=
  { alive := true, index := 1, loc := ⟨7, 7⟩, birthLoc := ⟨0, 0⟩, age := 0,
    genome := [], nnet := ⟨[], []⟩, responsiveness := 1 / 2, oscPeriod := 34,
    longProbeDist := 16, lastMoveDir := Compass.N, challengeBits := 0 }

lemma c4_psc_eval :
    passedSurvivalCriterion c4Grid c4Indiv CHALLENGE_MIGRATE_DISTANCE = (true, 9 / 8) := by
  rw [psc_eq_migrateDistance c4Grid c4Indiv (by norm_num [c4Indiv])]
  rw [show c4Indiv.loc - c4Indiv.birthLoc = (⟨7, 7⟩ : Coordinate) from by decide]
  norm_num [c4Grid, Coordinate.length]
  rw [show Int.toNat 98 = 98 from rfl, sqrt98_eq]
  norm_num

/-- **C4 counterexample.** For the supported challenge
`CHALLENGE_MIGRATE_DISTANCE`, an alive agent on an 8x8 grid that moved from
`(0,0)` to `(7,7)` receives score `9/8 > 1`: the score component of
`passedSurvivalCriterion` does NOT always lie in `[0, 1]`. -/
theorem C4_score_range_counterexample :
    CHALLENGE_MIGRATE_DISTANCE ∈ supportedChallenges ∧
    2 ≤ c4Grid.sizeX ∧ 2 ≤ c4Grid.sizeY ∧
    1 < (passedSurvivalCriterion c4Grid c4Indiv CHALLENGE_MIGRATE_DISTANCE).2 := by
  refine ⟨by simp [supportedChallenges, CHALLENGE_MIGRATE_DISTANCE], by norm_num [c4Grid],
    by norm_num [c4Grid], ?_⟩
  rw [c4_psc_eval]
  norm_num

/-! ## End-of-step boundary sequence (src/src/endOfSimStep.cpp) -/

/-- The serial operations performed at a step boundary, as events. -/
inductive StepEvent where
  | challengeRadioactiveWalls
  | challengeTouchAnyWall
  | challengeLocationSequence
  | drainDeathQueue
  | drainMoveQueue
  | signalsFade
  | videoFrame
deriving DecidableEq, Repr

/-- The sequence of serial step-boundary operations performed by
`endOfSimulationStep(simStep, generation)`, in source statement order: the
three challenge hooks (each guarded by a test of the configured challenge
id), then the source's block of deferred-queue and signal processing —
death-queue drain, move-queue drain, pheromone fade — which the source
contains TWICE in a row (lines 171-182 and the duplicated lines 199-210),
and finally the conditional video-frame capture, whose
`saveVideo && (generation % videoStride == 0 || ...)` guard is abstracted
as `videoCondition`. -/
def endOfSimulationStepTrace (challenge : ℕ) (videoCondition : Bool) : List StepEvent :=
  (if challenge = CHALLENGE_RADIOACTIVE_WALLS then [StepEvent.challengeRadioactiveWalls] else []) ++
  (if challenge = CHALLENGE_TOUCH_ANY_WALL then [StepEvent.challengeTouchAnyWall] else []) ++
  (if challenge = CHALLENGE_LOCATION_SEQUENCE then [StepEvent.challengeLocationSequence] else []) ++
  [StepEvent.drainDeathQueue, StepEvent.drainMoveQueue, StepEvent.signalsFade] ++
  [StepEvent.drainDeathQueue, StepEvent.drainMoveQueue, StepEvent.signalsFade] ++
  (if videoCondition then [StepEvent.videoFrame] else [])

/-- **C7 (code bug).** The step-boundary work does NOT perform the claimed
fixed order "challenge hook, drain death queue, drain move queue, signals
fade, frame hook": the source duplicates the death-drain/move-drain/fade
block, so each of those three operations runs twice per step.  Shown here
for the `CHALLENGE_TOUCH_ANY_WALL` hook with the video condition true: the
actual trace has eight events, not the claimed five. -/
theorem C7_step_order :
    endOfSimulationStepTrace CHALLENGE_TOUCH_ANY_WALL true =
      [StepEvent.challengeTouchAnyWall,
        StepEvent.drainDeathQueue, StepEvent.drainMoveQueue, StepEvent.signalsFade,
        StepEvent.drainDeathQueue, StepEvent.drainMoveQueue, StepEvent.signalsFade,
        StepEvent.videoFrame] ∧
    endOfSimulationStepTrace CHALLENGE_TOUCH_ANY_WALL true ≠
      [StepEvent.challengeTouchAnyWall,
        StepEvent.drainDeathQueue, StepEvent.drainMoveQueue, StepEvent.signalsFade,
        StepEvent.videoFrame] := by
  constructor
  · decide
  · decide

/-- Witness for `C4_score_range` at a concrete input. -/
theorem C4_score_range_witness :
    0 ≤ (passedSurvivalCriterion c4Grid c4Indiv 0).2 ∧
    ((0 : ℕ) ≠ CHALLENGE_MIGRATE_DISTANCE → (passedSurvivalCriterion c4Grid c4Indiv 0).2 ≤ 1) :=
  C4_score_range c4Grid c4Indiv 0 (by norm_num [c4Grid]) (by norm_num [c4Grid])
    (by simp [supportedChallenges])

/-! ## The world: grid contents plus the agent container
(src/src/peeps.cpp, src/src/indiv.cpp).  `cells` maps a coordinate to the
`uint16_t` it stores (0 = empty); `peeps` maps an agent index to the agent;
index 0 is reserved and live agents occupy slots `1..N`. -/

structure World where
  cells : Coordinate → ℕ
  peeps : ℕ → Individual

/-- `Grid::set(loc, val)`. -/
def gridSet (cells : Coordinate → ℕ) (loc : Coordinate) (v : ℕ) : Coordinate → ℕ :=
  fun c => if c = loc then v else cells c

/-- One iteration of the `Peeps::drainDeathQueue()` loop: zero the grid
cell at the agent's location and clear its `alive` flag (the source checks
nothing else). -/
def applyDeath (w : World) (index : ℕ) : World :=
  { cells := gridSet w.cells ((w.peeps index).loc) 0,
    peeps := fun j => if j = index then { w.peeps index with alive := false }
      else w.peeps j }

/-- `Peeps::drainDeathQueue()` over the queued indices, in order. -/
def drainDeathQueue (w : World) (dq : List ℕ) : World :=
  dq.foldl applyDeath w

/-- One iteration of the `Peeps::drainMoveQueue()` loop: if the agent is
still alive and the destination cell is empty, zero the old cell, write the
agent index into the new cell, and update `loc` and `lastMoveDir`. -/
def applyMove (w : World) (r : ℕ × Coordinate) : World :=
  let indiv := w.peeps r.1
  if indiv.alive then
    let newLoc := r.2
    let moveDir := (newLoc - indiv.loc).asDir
    if w.cells newLoc = 0 then
      { cells := gridSet (gridSet w.cells indiv.loc 0) newLoc indiv.index,
        peeps := fun j => if j = r.1 then { indiv with loc := newLoc, lastMoveDir := moveDir }
          else w.peeps j }
    else w
  else w

/-- `Peeps::drainMoveQueue()` over the queued move records, in order. -/
def drainMoveQueue (w : World) (mq : List (ℕ × Coordinate)) : World :=
  mq.foldl applyMove w

/-- `Individual::initialize(index_, loc_, genome_)` (src/src/indiv.cpp)
acting on the world (the method runs on the slot `peeps[index_]`): assigns
`index`, `loc`, the grid cell at `loc_`, `age`, `oscPeriod`, `alive`,
`lastMoveDir`, `responsiveness`, `longProbeDist`, `challengeBits` and
`genome`, then compiles the genome into `nnet`.  The source's
`birthLoc = loc_;` assignment is commented out, so `birthLoc` is left
untouched.  `rnd` is the `Dir::random8()` draw and `lpd` the
`longProbeDistance` parameter; `index_` is a `uint16_t`. -/
def initializeIndiv (w : World) (index_ : ℕ) (loc_ : Coordinate) (genome_ : List Gene)
    (maxN lpd rnd : ℕ) : World :=
  { cells := gridSet w.cells loc_ (index_ % 65536),
    peeps := fun j => if j = index_ % 65536 then
        { w.peeps j with
            index := index_ % 65536, loc := loc_, age := 0, oscPeriod := 34, alive := true,
            lastMoveDir := Dir.random8 rnd, responsiveness := 1 / 2, longProbeDist := lpd,
            challengeBits := 0, genome := genome_,
            nnet := createWiringFromGenome maxN genome_ }
      else w.peeps j }

/-! ### Claim C10: initialize never assigns birthLoc -/

/-- **C10.** `Individual::initialize(index, loc, genome)` assigns `index`,
`loc`, `age`, `oscPeriod`, `alive`, `lastMoveDir`, `responsiveness`,
`longProbeDist`, `challengeBits`, `genome`, `nnet` and the grid cell, but
never assigns `birthLoc`: the slot keeps whatever `birthLoc` it previously
held — even though the `CHALLENGE_MIGRATE_DISTANCE` survival score of a
live agent is exactly `|loc - birthLoc| / max(W, H)`. -/
theorem C10_initialize_frame (w : World) (index_ : ℕ) (loc_ : Coordinate)
    (genome_ : List Gene) (maxN lpd rnd : ℕ) :
    ((initializeIndiv w index_ loc_ genome_ maxN lpd rnd).peeps (index_ % 65536)).birthLoc =
      (w.peeps (index_ % 65536)).birthLoc ∧
    ((initializeIndiv w index_ loc_ genome_ maxN lpd rnd).peeps (index_ % 65536)).index =
      index_ % 65536 ∧
    ((initializeIndiv w index_ loc_ genome_ maxN lpd rnd).peeps (index_ % 65536)).loc = loc_ ∧
    ((initializeIndiv w index_ loc_ genome_ maxN lpd rnd).peeps (index_ % 65536)).age = 0 ∧
    ((initializeIndiv w index_ loc_ genome_ maxN lpd rnd).peeps (index_ % 65536)).oscPeriod = 34 ∧
    ((initializeIndiv w index_ loc_ genome_ maxN lpd rnd).peeps (index_ % 65536)).alive = true ∧
    ((initializeIndiv w index_ loc_ genome_ maxN lpd rnd).peeps (index_ % 65536)).lastMoveDir =
      Dir.random8 rnd ∧
    ((initializeIndiv w index_ loc_ genome_ maxN lpd rnd).peeps
      (index_ % 65536)).responsiveness = 1 / 2 ∧
    ((initializeIndiv w index_ loc_ genome_ maxN lpd rnd).peeps
      (index_ % 65536)).longProbeDist = lpd ∧
    ((initializeIndiv w index_ loc_ genome_ maxN lpd rnd).peeps
      (index_ % 65536)).challengeBits = 0 ∧
    ((initializeIndiv w index_ loc_ genome_ maxN lpd rnd).peeps (index_ % 65536)).genome =
      genome_ ∧
    ((initializeIndiv w index_ loc_ genome_ maxN lpd rnd).peeps (index_ % 65536)).nnet =
      createWiringFromGenome maxN genome_ ∧
    (initializeIndiv w index_ loc_ genome_ maxN lpd rnd).cells =
      gridSet w.cells loc_ (index_ % 65536) ∧
    (∀ (g : SimGrid) (i : Individual),
      (passedSurvivalCriterion g { i with alive := true } CHALLENGE_MIGRATE_DISTANCE).2 =
        ((i.loc - i.birthLoc).length : ℚ) / (max g.sizeX g.sizeY : ℕ)) := by
  refine ⟨by simp [initializeIndiv], by simp [initializeIndiv], by simp [initializeIndiv],
    by simp [initializeIndiv], by simp [initializeIndiv], by simp [initializeIndiv],
    by simp [initializeIndiv], by simp [initializeIndiv], by simp [initializeIndiv],
    by simp [initializeIndiv], by simp [initializeIndiv], by simp [initializeIndiv],
    rfl, ?_⟩
  intro g i
  rw [psc_eq_migrateDistance g _ (by simp)]

/-! ### Claim C5: the grid-consistency invariant G1 -/

/-- The world invariant **G1** for population slots `1..N`: every live
agent's `index` field equals its slot, the grid cell at its location holds
its index, and no two live agents occupy the same cell. -/
def G1 (w : World) (N : ℕ) : Prop :=
  (∀ i, 1 ≤ i → i ≤ N → (w.peeps i).alive = true →
    (w.peeps i).index = i ∧ w.cells ((w.peeps i).loc) = i) ∧
  (∀ i j, 1 ≤ i → i ≤ N → 1 ≤ j → j ≤ N → (w.peeps i).alive = true →
    (w.peeps j).alive = true → (w.peeps i).loc = (w.peeps j).loc → i = j)

lemma nodup_of_cells (w : World) (N : ℕ)
    (h : ∀ i, 1 ≤ i → i ≤ N → (w.peeps i).alive = true →
      (w.peeps i).index = i ∧ w.cells ((w.peeps i).loc) = i) :
    ∀ i j, 1 ≤ i → i ≤ N → 1 ≤ j → j ≤ N → (w.peeps i).alive = true →
      (w.peeps j).alive = true → (w.peeps i).loc = (w.peeps j).loc → i = j := by
  intro i j hi1 hi2 hj1 hj2 hai haj heq
  have h1 := (h i hi1 hi2 hai).2
  have h2 := (h j hj1 hj2 haj).2
  rw [heq] at h1
  omega

lemma G1_initializeIndiv (w : World) (N index_ : ℕ) (loc_ : Coordinate) (genome_ : List Gene)
    (maxN lpd rnd : ℕ) (hG : G1 w N) (h1 : 1 ≤ index_) (h2 : index_ ≤ N) (hN : N < 65536)
    (hempty : w.cells loc_ = 0) :
    G1 (initializeIndiv w index_ loc_ genome_ maxN lpd rnd) N := by
  have hmod : index_ % 65536 = index_ := Nat.mod_eq_of_lt (by omega)
  have hcells : ∀ i, 1 ≤ i → i ≤ N →
      ((initializeIndiv w index_ loc_ genome_ maxN lpd rnd).peeps i).alive = true →
      ((initializeIndiv w index_ loc_ genome_ maxN lpd rnd).peeps i).index = i ∧
      (initializeIndiv w index_ loc_ genome_ maxN lpd rnd).cells
        (((initializeIndiv w index_ loc_ genome_ maxN lpd rnd).peeps i).loc) = i := by
    intro i hi1 hi2 halive
    by_cases hik : i = index_
    · subst hik
      constructor
      · simp [initializeIndiv, hmod]
      · simp [initializeIndiv, gridSet, hmod]
    · have hpe : (initializeIndiv w index_ loc_ genome_ maxN lpd rnd).peeps i = w.peeps i := by
        simp [initializeIndiv, hmod, hik]
      rw [hpe] at halive ⊢
      obtain ⟨hidx, hcell⟩ := hG.1 i hi1 hi2 halive
      have hne : (w.peeps i).loc ≠ loc_ := by
        intro heq
        rw [heq] at hcell
        omega
      refine ⟨hidx, ?_⟩
      simpa [initializeIndiv, gridSet, hne] using hcell
  exact ⟨hcells, nodup_of_cells _ _ hcells⟩

lemma G1_applyDeath (w : World) (N k : ℕ) (hG : G1 w N) (hk1 : 1 ≤ k) (hk2 : k ≤ N)
    (hP : (w.peeps k).alive = true ∨ w.cells ((w.peeps k).loc) = 0) :
    G1 (applyDeath w k) N := by
  have hcells : ∀ i, 1 ≤ i → i ≤ N → ((applyDeath w k).peeps i).alive = true →
      ((applyDeath w k).peeps i).index = i ∧
      (applyDeath w k).cells (((applyDeath w k).peeps i).loc) = i := by
    intro i hi1 hi2 halive
    by_cases hik : i = k
    · subst hik
      simp [applyDeath] at halive
    · have hpe : (applyDeath w k).peeps i = w.peeps i := by simp [applyDeath, hik]
      rw [hpe] at halive ⊢
      obtain ⟨hidx, hcell⟩ := hG.1 i hi1 hi2 halive
      have hne : (w.peeps i).loc ≠ (w.peeps k).loc := by
        rcases hP with hal | hz
        · intro heq
          exact hik (hG.2 i k hi1 hi2 hk1 hk2 halive hal heq)
        · intro heq
          rw [heq] at hcell
          omega
      refine ⟨hidx, ?_⟩
      simpa [applyDeath, gridSet, hne] using hcell
  exact ⟨hcells, nodup_of_cells _ _ hcells⟩

lemma G1_drainDeathQueue (N : ℕ) : ∀ (dq : List ℕ) (w : World), G1 w N →
    (∀ k ∈ dq, 1 ≤ k ∧ k ≤ N ∧
      ((w.peeps k).alive = true ∨ w.cells ((w.peeps k).loc) = 0)) →
    G1 (drainDeathQueue w dq) N := by
  intro dq
  induction dq with
  | nil =>
    intro w hG _
    simpa [drainDeathQueue] using hG
  | cons k rest ih =>
    intro w hG hq
    obtain ⟨hk1, hk2, hPk⟩ := hq k (List.mem_cons_self k rest)
    have hstep := G1_applyDeath w N k hG hk1 hk2 hPk
    have hrest : ∀ k' ∈ rest, 1 ≤ k' ∧ k' ≤ N ∧
        (((applyDeath w k).peeps k').alive = true ∨
          (applyDeath w k).cells (((applyDeath w k).peeps k').loc) = 0) := by
      intro k' hk'
      obtain ⟨h1', h2', hP'⟩ := hq k' (List.mem_cons_of_mem _ hk')
      refine ⟨h1', h2', ?_⟩
      by_cases hkk : k' = k
      · subst hkk
        right
        simp [applyDeath, gridSet]
      · have hpe : (applyDeath w k).peeps k' = w.peeps k' := by simp [applyDeath, hkk]
        rw [hpe]
        rcases hP' with hal | hz
        · exact Or.inl hal
        · right
          by_cases hll : (w.peeps k').loc = (w.peeps k).loc
          · simp [applyDeath, gridSet, hll]
          · simpa [applyDeath, gridSet, hll] using hz
    simpa [drainDeathQueue, List.foldl_cons] using ih (applyDeath w k) hstep hrest

lemma G1_applyMove (w : World) (N : ℕ) (r : ℕ × Coordinate) (hG : G1 w N)
    (h1 : 1 ≤ r.1) (h2 : r.1 ≤ N) : G1 (applyMove w r) N := by
  rcases r with ⟨k, newLoc⟩
  dsimp only at h1 h2
  by_cases hal : (w.peeps k).alive = true
  · by_cases hemp : w.cells newLoc = 0
    · obtain ⟨hidx, hcell⟩ := hG.1 k h1 h2 hal
      have hpeeps : ∀ j, (applyMove w (k, newLoc)).peeps j =
          if j = k then { w.peeps k with loc := newLoc, lastMoveDir := (newLoc - (w.peeps k).loc).asDir }
          else w.peeps j := by
        intro j
        simp [applyMove, hal, hemp]
      have hcells2 : (applyMove w (k, newLoc)).cells =
          gridSet (gridSet w.cells ((w.peeps k).loc) 0) newLoc ((w.peeps k).index) := by
        simp [applyMove, hal, hemp]
      have hnl : newLoc ≠ (w.peeps k).loc := by
        intro heq
        rw [heq] at hemp
        omega
      have hcells : ∀ i, 1 ≤ i → i ≤ N → ((applyMove w (k, newLoc)).peeps i).alive = true →
          ((applyMove w (k, newLoc)).peeps i).index = i ∧
          (applyMove w (k, newLoc)).cells (((applyMove w (k, newLoc)).peeps i).loc) = i := by
        intro i hi1 hi2 halive
        by_cases hik : i = k
        · subst hik
          constructor
          · rw [hpeeps]
            simpa using hidx
          · rw [hcells2, hpeeps]
            simpa [gridSet] using hidx
        · have hpe : (applyMove w (k, newLoc)).peeps i = w.peeps i := by
            rw [hpeeps]
            simp [hik]
          rw [hpe] at halive ⊢
          obtain ⟨hidx', hcell'⟩ := hG.1 i hi1 hi2 halive
          have hne1 : (w.peeps i).loc ≠ newLoc := by
            intro heq
            rw [heq] at hcell'
            omega
          have hne2 : (w.peeps i).loc ≠ (w.peeps k).loc := fun heq =>
            hik (hG.2 i k hi1 hi2 h1 h2 halive hal heq)
          refine ⟨hidx', ?_⟩
          rw [hcells2]
          simpa [gridSet, hne1, hne2] using hcell'
      exact ⟨hcells, nodup_of_cells _ _ hcells⟩
    · have hw : applyMove w (k, newLoc) = w := by simp [applyMove, hal, hemp]
      rwa [hw]
  · have hw : applyMove w (k, newLoc) = w := by simp [applyMove, hal]
    rwa [hw]

lemma G1_drainMoveQueue (N : ℕ) : ∀ (mq : List (ℕ × Coordinate)) (w : World), G1 w N →
    (∀ r ∈ mq, 1 ≤ r.1 ∧ r.1 ≤ N) → G1 (drainMoveQueue w mq) N := by
  intro mq
  induction mq with
  | nil =>
    intro w hG _
    simpa [drainMoveQueue] using hG
  | cons r rest ih =>
    intro w hG hq
    obtain ⟨h1, h2⟩ := hq r (List.mem_cons_self r rest)
    have hstep := G1_applyMove w N r hG h1 h2
    have hrest : ∀ r' ∈ rest, 1 ≤ r'.1 ∧ r'.1 ≤ N := fun r' h =>
      hq r' (List.mem_cons_of_mem _ h)
    simpa [drainMoveQueue, List.foldl_cons] using ih (applyMove w r) hstep hrest

/-- **C5.** The invariant `G1` — every live agent's grid cell holds its
index, and live agents' cells are distinct — is preserved by each serial
world mutation, under the preconditions the callers establish:
`Individual::initialize` targets a valid slot (`1 <= index_ <= N < 65536`,
matching the `uint16_t` index and the reserved slot 0) and an empty cell;
every death-queue entry was queued while alive (`queueForDeath` asserts
`individual.alive`); every move-queue entry names a valid slot
(`queueForMove` is called for population members only). -/
theorem C5_world_invariant (N : ℕ) :
    (∀ (w : World) (index_ : ℕ) (loc_ : Coordinate) (genome_ : List Gene)
      (maxN lpd rnd : ℕ),
      G1 w N → 1 ≤ index_ → index_ ≤ N → N < 65536 → w.cells loc_ = 0 →
      G1 (initializeIndiv w index_ loc_ genome_ maxN lpd rnd) N) ∧
    (∀ (w : World) (dq : List ℕ),
      G1 w N → (∀ k ∈ dq, 1 ≤ k ∧ k ≤ N ∧ (w.peeps k).alive = true) →
      G1 (drainDeathQueue w dq) N) ∧
    (∀ (w : World) (mq : List (ℕ × Coordinate)),
      G1 w N → (∀ r ∈ mq, 1 ≤ r.1 ∧ r.1 ≤ N) →
      G1 (drainMoveQueue w mq) N) := by
  refine ⟨fun w i l g m lp rn hG a b c d => G1_initializeIndiv w N i l g m lp rn hG a b c d,
    fun w dq hG hq => G1_drainDeathQueue N dq w hG
      (fun k hk => ⟨(hq k hk).1, (hq k hk).2.1, Or.inl (hq k hk).2.2⟩),
    fun w mq hG hq => G1_drainMoveQueue N mq w hG hq⟩

/-- A dead agent used to populate the all-dead initial world below. -/
def deadIndiv : Individual :=
  { alive := false, index := 0, loc := ⟨0, 0⟩, birthLoc := ⟨0, 0⟩, age := 0, genome := [],
    nnet := ⟨[], []⟩, responsiveness := 1 / 2, oscPeriod := 34, longProbeDist := 16,
    lastMoveDir := Compass.N, challengeBits := 0 }

/-- An empty world: all cells 0, all slots dead. -/
def w0 : World := ⟨fun _ => 0, fun _ => deadIndiv⟩

lemma G1_w0 : G1 w0 1 := by
  constructor
  · intro i _ _ halive
    simp [w0, deadIndiv] at halive
  · intro i j _ _ _ _ halive _ _
    simp [w0, deadIndiv] at halive

/-- Witness for `C5_world_invariant` at a concrete world and queues. -/
theorem C5_world_invariant_witness :
    G1 (initializeIndiv w0 1 ⟨0, 0⟩ [] 5 16 0) 1 ∧
    G1 (drainDeathQueue w0 []) 1 ∧
    G1 (drainMoveQueue w0 []) 1 :=
  ⟨(C5_world_invariant 1).1 w0 1 ⟨0, 0⟩ [] 5 16 0 G1_w0 (le_refl 1) (le_refl 1)
      (by norm_num) rfl,
    (C5_world_invariant 1).2.1 w0 [] G1_w0 (by simp),
    (C5_world_invariant 1).2.2 w0 [] G1_w0 (by simp)⟩

/-! ## Machinery for the amended culling claim (C2): the node map as a
sorted association list, connection degrees, and the invariant maintained
by `makeNodeList` and the culling loop. -/

/-- The `std::map` key order: strictly ascending keys. -/
def nmSorted (m : NodeMap) : Prop := m.Pairwise (fun a b => a.1 < b.1)

lemma nmFind_nil (k' : ℕ) : nmFind [] k' = none := rfl

lemma nmFind_cons (k0 : ℕ) (v0 : Node) (t : NodeMap) (k' : ℕ) :
    nmFind ((k0, v0) :: t) k' = if k0 = k' then some v0 else nmFind t k' := rfl

lemma nmInsert_nil (k : ℕ) (v : Node) : nmInsert [] k v = [(k, v)] := rfl

lemma nmInsert_cons (k0 : ℕ) (v0 : Node) (t : NodeMap) (k : ℕ) (v : Node) :
    nmInsert ((k0, v0) :: t) k v =
      if k < k0 then (k, v) :: (k0, v0) :: t
      else if k = k0 then (k0, v0) :: t
      else (k0, v0) :: nmInsert t k v := rfl

lemma nmSet_nil (k : ℕ) (v : Node) : nmSet [] k v = [] := rfl

lemma nmSet_cons (k0 : ℕ) (v0 : Node) (t : NodeMap) (k : ℕ) (v : Node) :
    nmSet ((k0, v0) :: t) k v =
      if k0 = k then (k, v) :: t else (k0, v0) :: nmSet t k v := rfl

lemma nmErase_nil (k : ℕ) : nmErase [] k = [] := rfl

lemma nmErase_cons (k0 : ℕ) (v0 : Node) (t : NodeMap) (k : ℕ) :
    nmErase ((k0, v0) :: t) k = if k0 = k then t else (k0, v0) :: nmErase t k := rfl

lemma nmFind_nmInsert_self (m : NodeMap) (k : ℕ) (v : Node) (h : nmFind m k = none) :
    nmFind (nmInsert m k v) k = some v := by
  induction m with
  | nil => rw [nmInsert_nil, nmFind_cons, if_pos rfl]
  | cons e t ih =>
    rcases e with ⟨k0, v0⟩
    rw [nmFind_cons] at h
    rw [nmInsert_cons]
    by_cases h1 : k < k0
    · rw [if_pos h1, nmFind_cons, if_pos rfl]
    · rw [if_neg h1]
      by_cases h2 : k = k0
      · rw [if_pos h2.symm] at h
        simp at h
      · rw [if_neg h2, nmFind_cons, if_neg (fun hh => h2 hh.symm)]
        rw [if_neg (fun hh => h2 hh.symm)] at h
        exact ih h

lemma nmFind_nmInsert_ne (m : NodeMap) (k : ℕ) (v : Node) (k' : ℕ) (h : k' ≠ k) :
    nmFind (nmInsert m k v) k' = nmFind m k' := by
  induction m with
  | nil => rw [nmInsert_nil, nmFind_cons, if_neg (fun hh => h hh.symm)]
  | cons e t ih =>
    rcases e with ⟨k0, v0⟩
    rw [nmInsert_cons]
    by_cases h1 : k < k0
    · rw [if_pos h1, nmFind_cons, if_neg (fun hh => h hh.symm)]
    · rw [if_neg h1]
      by_cases h2 : k = k0
      · rw [if_pos h2]
      · rw [if_neg h2, nmFind_cons, nmFind_cons]
        by_cases h3 : k0 = k'
        · rw [if_pos h3, if_pos h3]
        · rw [if_neg h3, if_neg h3]
          exact ih

lemma nmFind_nmSet_self (m : NodeMap) (k : ℕ) (v : Node)
    (h : (nmFind m k).isSome) : nmFind (nmSet m k v) k = some v := by
  induction m with
  | nil => simp [nmFind_nil] at h
  | cons e t ih =>
    rcases e with ⟨k0, v0⟩
    rw [nmFind_cons] at h
    rw [nmSet_cons]
    by_cases h1 : k0 = k
    · rw [if_pos h1, nmFind_cons, if_pos rfl]
    · rw [if_neg h1, nmFind_cons, if_neg h1]
      rw [if_neg h1] at h
      exact ih h

lemma nmFind_nmSet_ne (m : NodeMap) (k : ℕ) (v : Node) (k' : ℕ) (h : k' ≠ k) :
    nmFind (nmSet m k v) k' = nmFind m k' := by
  induction m with
  | nil => rw [nmSet_nil]
  | cons e t ih =>
    rcases e with ⟨k0, v0⟩
    rw [nmSet_cons]
    by_cases h1 : k0 = k
    · rw [if_pos h1, nmFind_cons, nmFind_cons, if_neg (fun hh => h hh.symm),
        if_neg (fun hh : k0 = k' => h ((h1 ▸ hh).symm))]
    · rw [if_neg h1, nmFind_cons, nmFind_cons]
      by_cases h3 : k0 = k'
      · rw [if_pos h3, if_pos h3]
      · rw [if_neg h3, if_neg h3]
        exact ih

lemma nmFind_nmErase_ne (m : NodeMap) (k k' : ℕ) (h : k' ≠ k) :
    nmFind (nmErase m k) k' = nmFind m k' := by
  induction m with
  | nil => rw [nmErase_nil]
  | cons e t ih =>
    rcases e with ⟨k0, v0⟩
    rw [nmErase_cons]
    by_cases h1 : k0 = k
    · rw [if_pos h1, nmFind_cons, if_neg (fun hh : k0 = k' => h ((h1 ▸ hh).symm))]
    · rw [if_neg h1, nmFind_cons, nmFind_cons]
      by_cases h3 : k0 = k'
      · rw [if_pos h3, if_pos h3]
      · rw [if_neg h3, if_neg h3]
        exact ih

lemma nmFind_eq_none_of_forall (m : NodeMap) (k : ℕ) (h : ∀ e ∈ m, ¬e.1 = k) :
    nmFind m k = none := by
  induction m with
  | nil => rfl
  | cons e t ih =>
    rcases e with ⟨k0, v0⟩
    rw [nmFind_cons, if_neg (h (k0, v0) (List.mem_cons_self _ _))]
    exact ih (fun e he => h e (List.mem_cons_of_mem _ he))

lemma nmFind_nmErase_self (m : NodeMap) (k : ℕ) (hs : nmSorted m) :
    nmFind (nmErase m k) k = none := by
  induction m with
  | nil => rfl
  | cons e t ih =>
    rcases e with ⟨k0, v0⟩
    simp only [nmSorted, List.pairwise_cons] at hs
    rw [nmErase_cons]
    by_cases h1 : k0 = k
    · rw [if_pos h1]
      subst h1
      refine nmFind_eq_none_of_forall t k0 (fun e he => ?_)
      have := hs.1 e he
      omega
    · rw [if_neg h1, nmFind_cons, if_neg h1]
      exact ih hs.2

lemma nmFind_eq_of_mem (m : NodeMap) (k : ℕ) (nd : Node) (hs : nmSorted m)
    (h : (k, nd) ∈ m) : nmFind m k = some nd := by
  induction m with
  | nil => simp at h
  | cons e t ih =>
    rcases e with ⟨k0, v0⟩
    simp only [nmSorted, List.pairwise_cons] at hs
    rw [nmFind_cons]
    by_cases h1 : k0 = k
    · rw [if_pos h1]
      rcases List.mem_cons.mp h with he | ht
      · rw [((Prod.mk.injEq _ _ _ _).mp he.symm).2]
      · have hlt : k0 < k := hs.1 (k, nd) ht
        exact absurd h1 (Nat.ne_of_lt hlt)
    · rw [if_neg h1]
      rcases List.mem_cons.mp h with he | ht
      · exact absurd ((Prod.mk.injEq _ _ _ _).mp he).1.symm h1
      · exact ih hs.2 ht

lemma mem_of_nmFind (m : NodeMap) (k : ℕ) (nd : Node) (h : nmFind m k = some nd) :
    (k, nd) ∈ m := by
  induction m with
  | nil => simp [nmFind_nil] at h
  | cons e t ih =>
    rcases e with ⟨k0, v0⟩
    rw [nmFind_cons] at h
    by_cases h1 : k0 = k
    · rw [if_pos h1] at h
      subst h1
      simp only [Option.some.injEq] at h
      exact List.mem_cons.mpr (Or.inl (by rw [← h]))
    · rw [if_neg h1] at h
      exact List.mem_cons_of_mem _ (ih h)

lemma mem_nmInsert (m : NodeMap) (k : ℕ) (v : Node) (e : ℕ × Node)
    (h : e ∈ nmInsert m k v) : e ∈ m ∨ e = (k, v) := by
  induction m with
  | nil =>
    rw [nmInsert_nil] at h
    simp at h
    exact Or.inr h
  | cons e0 t ih =>
    rcases e0 with ⟨k0, v0⟩
    rw [nmInsert_cons] at h
    by_cases h1 : k < k0
    · rw [if_pos h1] at h
      rcases List.mem_cons.mp h with he | ht
      · exact Or.inr he
      · exact Or.inl ht
    · rw [if_neg h1] at h
      by_cases h2 : k = k0
      · rw [if_pos h2] at h
        exact Or.inl h
      · rw [if_neg h2] at h
        rcases List.mem_cons.mp h with he | ht
        · exact Or.inl (by rw [he]; exact List.mem_cons_self _ _)
        · rcases ih ht with hm | he
          · exact Or.inl (List.mem_cons_of_mem _ hm)
          · exact Or.inr he

lemma mem_nmSet_keys (m : NodeMap) (k : ℕ) (v : Node) (e : ℕ × Node)
    (h : e ∈ nmSet m k v) : ∃ e' ∈ m, e'.1 = e.1 := by
  induction m with
  | nil => simp [nmSet_nil] at h
  | cons e0 t ih =>
    rcases e0 with ⟨k0, v0⟩
    rw [nmSet_cons] at h
    by_cases h1 : k0 = k
    · rw [if_pos h1] at h
      rcases List.mem_cons.mp h with he | ht
      · exact ⟨(k0, v0), List.mem_cons_self _ _, by simp [he, h1]⟩
      · exact ⟨e, List.mem_cons_of_mem _ ht, rfl⟩
    · rw [if_neg h1] at h
      rcases List.mem_cons.mp h with he | ht
      · exact ⟨(k0, v0), List.mem_cons_self _ _, by simp [he]⟩
      · obtain ⟨e', he', hk⟩ := ih ht
        exact ⟨e', List.mem_cons_of_mem _ he', hk⟩

lemma mem_nmErase (m : NodeMap) (k : ℕ) (e : ℕ × Node) (h : e ∈ nmErase m k) : e ∈ m := by
  induction m with
  | nil => simpa [nmErase_nil] using h
  | cons e0 t ih =>
    rcases e0 with ⟨k0, v0⟩
    rw [nmErase_cons] at h
    by_cases h1 : k0 = k
    · rw [if_pos h1] at h
      exact List.mem_cons_of_mem _ h
    · rw [if_neg h1] at h
      rcases List.mem_cons.mp h with he | ht
      · exact List.mem_cons.mpr (Or.inl he)
      · exact List.mem_cons_of_mem _ (ih ht)

lemma nmSorted_nmInsert (m : NodeMap) (k : ℕ) (v : Node) (hs : nmSorted m) :
    nmSorted (nmInsert m k v) := by
  induction m with
  | nil =>
    rw [nmInsert_nil]
    simp [nmSorted]
  | cons e0 t ih =>
    rcases e0 with ⟨k0, v0⟩
    simp only [nmSorted, List.pairwise_cons] at hs
    rw [nmInsert_cons]
    by_cases h1 : k < k0
    · rw [if_pos h1]
      simp only [nmSorted, List.pairwise_cons]
      refine ⟨?_, hs.1, hs.2⟩
      intro e he
      rcases List.mem_cons.mp he with h2 | h2
      · have he1 : e.1 = k0 := by rw [h2]
        omega
      · have h3 : k0 < e.1 := hs.1 e h2
        omega
    · rw [if_neg h1]
      by_cases h2 : k = k0
      · rw [if_pos h2]
        simp only [nmSorted, List.pairwise_cons]
        exact hs
      · rw [if_neg h2]
        simp only [nmSorted, List.pairwise_cons]
        refine ⟨?_, ih hs.2⟩
        intro e he
        rcases mem_nmInsert t k v e he with hm | heq
        · exact hs.1 e hm
        · have he1 : e.1 = k := by rw [heq]
          omega

lemma nmSorted_nmSet (m : NodeMap) (k : ℕ) (v : Node) (hs : nmSorted m) :
    nmSorted (nmSet m k v) := by
  induction m with
  | nil =>
    rw [nmSet_nil]
    exact hs
  | cons e0 t ih =>
    rcases e0 with ⟨k0, v0⟩
    simp only [nmSorted, List.pairwise_cons] at hs
    rw [nmSet_cons]
    by_cases h1 : k0 = k
    · rw [if_pos h1]
      simp only [nmSorted, List.pairwise_cons]
      refine ⟨?_, hs.2⟩
      intro e he
      have := hs.1 e he
      omega
    · rw [if_neg h1]
      simp only [nmSorted, List.pairwise_cons]
      refine ⟨?_, ih hs.2⟩
      intro e he
      obtain ⟨e', he', hk⟩ := mem_nmSet_keys t k v e he
      have := hs.1 e' he'
      omega

lemma nmSorted_nmErase (m : NodeMap) (k : ℕ) (hs : nmSorted m) :
    nmSorted (nmErase m k) := by
  induction m with
  | nil =>
    rw [nmErase_nil]
    exact hs
  | cons e0 t ih =>
    rcases e0 with ⟨k0, v0⟩
    simp only [nmSorted, List.pairwise_cons] at hs
    rw [nmErase_cons]
    by_cases h1 : k0 = k
    · rw [if_pos h1]
      exact hs.2
    · rw [if_neg h1]
      simp only [nmSorted, List.pairwise_cons]
      exact ⟨fun e he => hs.1 e (mem_nmErase t k e he), ih hs.2⟩

lemma nmSorted_nmDecOutputs (m : NodeMap) (k : ℕ) (hs : nmSorted m) :
    nmSorted (nmDecOutputs m k) := by
  unfold nmDecOutputs
  split
  · exact nmSorted_nmSet m k _ hs
  · exact nmSorted_nmInsert m k _ hs

lemma nmFirstKeyGE_min (m : NodeMap) (cursor k : ℕ) (nd : Node) (hs : nmSorted m)
    (h : nmFirstKeyGE m cursor = some (k, nd)) :
    ∀ j nd', (j, nd') ∈ m → cursor ≤ j → k ≤ j := by
  induction m with
  | nil => simp [nmFirstKeyGE] at h
  | cons e0 t ih =>
    rcases e0 with ⟨k0, v0⟩
    simp only [nmSorted, List.pairwise_cons] at hs
    intro j nd' hj hcur
    unfold nmFirstKeyGE at h
    rw [List.find?_cons] at h
    split at h
    · simp only [Option.some.injEq] at h
      have hk : k0 = k := ((Prod.mk.injEq _ _ _ _).mp h).1
      rcases List.mem_cons.mp hj with he | ht
      · have hj0 : j = k0 := ((Prod.mk.injEq _ _ _ _).mp he).1
        omega
      · have hlt : k0 < j := hs.1 (j, nd') ht
        omega
    · rename_i hdec
      rcases List.mem_cons.mp hj with he | ht
      · have hj0 : j = k0 := ((Prod.mk.injEq _ _ _ _).mp he).1
        have hno : ¬cursor ≤ k0 := by simpa using hdec
        omega
      · have hs2 : nmSorted t := hs.2
        exact ih hs2 h j nd' ht hcur

lemma nmFirstKeyGE_none_forall (m : NodeMap) (cursor : ℕ)
    (h : nmFirstKeyGE m cursor = none) :
    ∀ j nd', (j, nd') ∈ m → ¬cursor ≤ j := by
  intro j nd' hj hcur
  have := List.find?_eq_none.mp h (j, nd') hj
  simp at this
  omega

lemma countP_and_not {α : Type} (l : List α) (p q : α → Bool) :
    l.countP p = l.countP (fun a => p a && q a) + l.countP (fun a => p a && !q a) := by
  induction l with
  | nil => simp
  | cons a t ih =>
    simp only [List.countP_cons]
    cases hp : p a <;> cases hq : q a <;> simp [hp, hq] <;> omega

lemma exists_of_countP_lt {α : Type} (l : List α) (p q : α → Bool)
    (hlt : l.countP q < l.countP p) : ∃ a ∈ l, p a = true ∧ q a = false := by
  by_contra hno
  push_neg at hno
  have hle : l.countP p ≤ l.countP q := by
    apply List.countP_mono_left
    intro a ha hp
    rcases hq : q a with _ | _
    · exact absurd (hno a ha hp) (by simp [hq])
    · simp
  omega

/-- The number of connections with source the neuron `k` (the intended
value of the node's `numOutputs` counter). -/
def outDeg (conns : List Gene) (k : ℕ) : ℕ :=
  conns.countP (fun c => decide (c.sourceType = NEURON ∧ c.sourceNum = k))

/-- The number of self-loop connections at neuron `k` (the intended value
of the node's `numSelfInputs` counter). -/
def selfDeg (conns : List Gene) (k : ℕ) : ℕ :=
  conns.countP (fun c => decide (c.sourceType = NEURON ∧ c.sourceNum = k ∧
    c.sinkType = NEURON ∧ c.sinkNum = k))

lemma u16succ_eq (v : ℕ) (h : v ≤ 65534) : u16succ v = v + 1 := by
  unfold u16succ
  omega

lemma u16pred_eq (v : ℕ) (h1 : 1 ≤ v) (h2 : v ≤ 65535) : u16pred v = v - 1 := by
  unfold u16pred
  omega

lemma outDeg_append (acc : List Gene) (c : Gene) (k : ℕ) :
    outDeg (acc ++ [c]) k = outDeg acc k +
      (if c.sourceType = NEURON ∧ c.sourceNum = k then 1 else 0) := by
  unfold outDeg
  rw [List.countP_append, List.countP_cons]
  simp

lemma selfDeg_append (acc : List Gene) (c : Gene) (k : ℕ) :
    selfDeg (acc ++ [c]) k = selfDeg acc k +
      (if c.sourceType = NEURON ∧ c.sourceNum = k ∧ c.sinkType = NEURON ∧ c.sinkNum = k
        then 1 else 0) := by
  unfold selfDeg
  rw [List.countP_append, List.countP_cons]
  simp

lemma outDeg_le_length (conns : List Gene) (k : ℕ) : outDeg conns k ≤ conns.length :=
  List.countP_le_length _

lemma selfDeg_le_length (conns : List Gene) (k : ℕ) : selfDeg conns k ≤ conns.length :=
  List.countP_le_length _

lemma find_processConnSink_ne (m : NodeMap) (c : Gene) (j : ℕ)
    (h : ¬(c.sinkType = NEURON ∧ c.sinkNum = j)) :
    nmFind (processConnSink m c) j = nmFind m j := by
  unfold processConnSink
  by_cases hst : c.sinkType = NEURON
  · rw [if_pos hst]
    have hj : j ≠ c.sinkNum := fun hh => h ⟨hst, hh.symm⟩
    cases hf : nmFind m c.sinkNum with
    | some v =>
      simp only [hf, Option.isSome_some, if_true, Option.getD_some]
      by_cases hself : c.sourceType = NEURON ∧ c.sourceNum = c.sinkNum
      · rw [if_pos hself, nmFind_nmSet_ne _ _ _ _ hj]
      · rw [if_neg hself, nmFind_nmSet_ne _ _ _ _ hj]
    | none =>
      simp only [hf, Option.isSome_none, Bool.false_eq_true, if_false,
        nmFind_nmInsert_self m c.sinkNum Node.zero hf, Option.getD_some]
      by_cases hself : c.sourceType = NEURON ∧ c.sourceNum = c.sinkNum
      · rw [if_pos hself, nmFind_nmSet_ne _ _ _ _ hj, nmFind_nmInsert_ne _ _ _ _ hj]
      · rw [if_neg hself, nmFind_nmSet_ne _ _ _ _ hj, nmFind_nmInsert_ne _ _ _ _ hj]
  · rw [if_neg hst]

lemma find_processConnSink_self (m : NodeMap) (c : Gene) (hst : c.sinkType = NEURON)
    (hself : c.sourceType = NEURON ∧ c.sourceNum = c.sinkNum) :
    nmFind (processConnSink m c) c.sinkNum =
      some { (nmFind m c.sinkNum).getD Node.zero with
        numSelfInputs := u16succ ((nmFind m c.sinkNum).getD Node.zero).numSelfInputs } := by
  unfold processConnSink
  rw [if_pos hst]
  cases hf : nmFind m c.sinkNum with
  | some v =>
    simp only [hf, Option.isSome_some, if_true, Option.getD_some]
    rw [if_pos hself, nmFind_nmSet_self _ _ _ (by simp [hf])]
  | none =>
    simp only [hf, Option.isSome_none, Bool.false_eq_true, if_false,
      nmFind_nmInsert_self m c.sinkNum Node.zero hf, Option.getD_some, Option.getD_none]
    rw [if_pos hself, nmFind_nmSet_self _ _ _
      (by simp [nmFind_nmInsert_self m c.sinkNum Node.zero hf])]

lemma find_processConnSink_nonself (m : NodeMap) (c : Gene) (hst : c.sinkType = NEURON)
    (hself : ¬(c.sourceType = NEURON ∧ c.sourceNum = c.sinkNum)) :
    nmFind (processConnSink m c) c.sinkNum =
      some { (nmFind m c.sinkNum).getD Node.zero with
        numInputsFromSensorsOrOtherNeurons :=
          u16succ ((nmFind m c.sinkNum).getD Node.zero).numInputsFromSensorsOrOtherNeurons } := by
  unfold processConnSink
  rw [if_pos hst]
  cases hf : nmFind m c.sinkNum with
  | some v =>
    simp only [hf, Option.isSome_some, if_true, Option.getD_some]
    rw [if_neg hself, nmFind_nmSet_self _ _ _ (by simp [hf])]
  | none =>
    simp only [hf, Option.isSome_none, Bool.false_eq_true, if_false,
      nmFind_nmInsert_self m c.sinkNum Node.zero hf, Option.getD_some, Option.getD_none]
    rw [if_neg hself, nmFind_nmSet_self _ _ _
      (by simp [nmFind_nmInsert_self m c.sinkNum Node.zero hf])]

lemma sorted_processConnSink (m : NodeMap) (c : Gene) (hs : nmSorted m) :
    nmSorted (processConnSink m c) := by
  unfold processConnSink
  by_cases hst : c.sinkType = NEURON
  · rw [if_pos hst]
    cases hf : nmFind m c.sinkNum with
    | some v =>
      simp only [hf, Option.isSome_some, if_true, Option.getD_some]
      by_cases hself : c.sourceType = NEURON ∧ c.sourceNum = c.sinkNum
      · rw [if_pos hself]
        exact nmSorted_nmSet _ _ _ hs
      · rw [if_neg hself]
        exact nmSorted_nmSet _ _ _ hs
    | none =>
      simp only [hf, Option.isSome_none, Bool.false_eq_true, if_false]
      by_cases hself : c.sourceType = NEURON ∧ c.sourceNum = c.sinkNum
      · rw [if_pos hself]
        exact nmSorted_nmSet _ _ _ (nmSorted_nmInsert _ _ _ hs)
      · rw [if_neg hself]
        exact nmSorted_nmSet _ _ _ (nmSorted_nmInsert _ _ _ hs)
  · rw [if_neg hst]
    exact hs

lemma find_processConnSource_ne (m : NodeMap) (c : Gene) (j : ℕ)
    (h : ¬(c.sourceType = NEURON ∧ c.sourceNum = j)) :
    nmFind (processConnSource m c) j = nmFind m j := by
  unfold processConnSource
  by_cases hst : c.sourceType = NEURON
  · rw [if_pos hst]
    have hj : j ≠ c.sourceNum := fun hh => h ⟨hst, hh.symm⟩
    cases hf : nmFind m c.sourceNum with
    | some v =>
      simp only [hf, Option.isSome_some, if_true, Option.getD_some]
      rw [nmFind_nmSet_ne _ _ _ _ hj]
    | none =>
      simp only [hf, Option.isSome_none, Bool.false_eq_true, if_false,
        nmFind_nmInsert_self m c.sourceNum Node.zero hf, Option.getD_some]
      rw [nmFind_nmSet_ne _ _ _ _ hj, nmFind_nmInsert_ne _ _ _ _ hj]
  · rw [if_neg hst]

lemma find_processConnSource_self (m : NodeMap) (c : Gene) (hst : c.sourceType = NEURON) :
    nmFind (processConnSource m c) c.sourceNum =
      some { (nmFind m c.sourceNum).getD Node.zero with
        numOutputs := u16succ ((nmFind m c.sourceNum).getD Node.zero).numOutputs } := by
  unfold processConnSource
  rw [if_pos hst]
  cases hf : nmFind m c.sourceNum with
  | some v =>
    simp only [hf, Option.isSome_some, if_true, Option.getD_some]
    rw [nmFind_nmSet_self _ _ _ (by simp [hf])]
  | none =>
    simp only [hf, Option.isSome_none, Bool.false_eq_true, if_false,
      nmFind_nmInsert_self m c.sourceNum Node.zero hf, Option.getD_some, Option.getD_none]
    rw [nmFind_nmSet_self _ _ _
      (by simp [nmFind_nmInsert_self m c.sourceNum Node.zero hf])]

lemma sorted_processConnSource (m : NodeMap) (c : Gene) (hs : nmSorted m) :
    nmSorted (processConnSource m c) := by
  unfold processConnSource
  by_cases hst : c.sourceType = NEURON
  · rw [if_pos hst]
    cases hf : nmFind m c.sourceNum with
    | some v =>
      simp only [hf, Option.isSome_some, if_true, Option.getD_some]
      exact nmSorted_nmSet _ _ _ hs
    | none =>
      simp only [hf, Option.isSome_none, Bool.false_eq_true, if_false]
      exact nmSorted_nmSet _ _ _ (nmSorted_nmInsert _ _ _ hs)
  · rw [if_neg hst]
    exact hs

lemma isSome_processConnSink (m : NodeMap) (c : Gene) (j : ℕ)
    (h : (nmFind m j).isSome) : (nmFind (processConnSink m c) j).isSome := by
  by_cases hj : c.sinkType = NEURON ∧ c.sinkNum = j
  · by_cases hself : c.sourceType = NEURON ∧ c.sourceNum = c.sinkNum
    · rw [← hj.2, find_processConnSink_self m c hj.1 hself]
      simp
    · rw [← hj.2, find_processConnSink_nonself m c hj.1 hself]
      simp
  · rw [find_processConnSink_ne m c j hj]
    exact h

lemma isSome_processConnSource (m : NodeMap) (c : Gene) (j : ℕ)
    (h : (nmFind m j).isSome) : (nmFind (processConnSource m c) j).isSome := by
  by_cases hj : c.sourceType = NEURON ∧ c.sourceNum = j
  · rw [← hj.2, find_processConnSource_self m c hj.1]
    simp
  · rw [find_processConnSource_ne m c j hj]
    exact h

/-- The invariant carried through `makeNodeList` and the culling loop: the
node map is sorted, every neuron referenced by a connection is a key, and
the two counters used by the cull test hold the exact out-degree and
self-loop degree of their key. -/
def CullInv (conns : List Gene) (m : NodeMap) : Prop :=
  nmSorted m ∧
  (∀ c ∈ conns, c.sinkType = NEURON → (nmFind m c.sinkNum).isSome) ∧
  (∀ c ∈ conns, c.sourceType = NEURON → (nmFind m c.sourceNum).isSome) ∧
  (∀ k nd, nmFind m k = some nd →
    nd.numOutputs = outDeg conns k ∧ nd.numSelfInputs = selfDeg conns k)

lemma deg_zero_of_absent (acc : List Gene) (m : NodeMap) (k : ℕ)
    (hsrc : ∀ c ∈ acc, c.sourceType = NEURON → (nmFind m c.sourceNum).isSome)
    (hold : nmFind m k = none) : outDeg acc k = 0 ∧ selfDeg acc k = 0 := by
  constructor
  · by_contra hpos
    have h0 : 0 < acc.countP (fun c => decide (c.sourceType = NEURON ∧ c.sourceNum = k)) := by
      unfold outDeg at hpos
      omega
    obtain ⟨c', hc', hp⟩ := List.countP_pos.mp h0
    simp at hp
    have h1 := hsrc c' hc' hp.1
    rw [hp.2, hold] at h1
    simp at h1
  · by_contra hpos
    have h0 : 0 < acc.countP (fun c => decide (c.sourceType = NEURON ∧ c.sourceNum = k ∧
        c.sinkType = NEURON ∧ c.sinkNum = k)) := by
      unfold selfDeg at hpos
      omega
    obtain ⟨c', hc', hp⟩ := List.countP_pos.mp h0
    simp at hp
    have h1 := hsrc c' hc' hp.1
    rw [hp.2.1, hold] at h1
    simp at h1

lemma CullInv_step (acc : List Gene) (m : NodeMap) (c : Gene)
    (hlen : acc.length ≤ 65534) (hinv : CullInv acc m) :
    CullInv (acc ++ [c]) (processConnSource (processConnSink m c) c) := by
  obtain ⟨hs, hsink, hsrc, hcnt⟩ := hinv
  refine ⟨sorted_processConnSource _ _ (sorted_processConnSink _ _ hs), ?_, ?_, ?_⟩
  · intro c' hc' hst
    rcases List.mem_append.mp hc' with hmem | hmem
    · exact isSome_processConnSource _ _ _
        (isSome_processConnSink _ _ _ (hsink c' hmem hst))
    · have hceq : c' = c := by simpa using hmem
      subst hceq
      apply isSome_processConnSource
      by_cases hself : c'.sourceType = NEURON ∧ c'.sourceNum = c'.sinkNum
      · rw [find_processConnSink_self m c' hst hself]
        simp
      · rw [find_processConnSink_nonself m c' hst hself]
        simp
  · intro c' hc' hst
    rcases List.mem_append.mp hc' with hmem | hmem
    · exact isSome_processConnSource _ _ _
        (isSome_processConnSink _ _ _ (hsrc c' hmem hst))
    · have hceq : c' = c := by simpa using hmem
      subst hceq
      rw [find_processConnSource_self _ c' hst]
      simp
  · intro k nd hfind
    rw [outDeg_append, selfDeg_append]
    have houtle : outDeg acc k ≤ 65534 := (outDeg_le_length acc k).trans hlen
    have hselfle : selfDeg acc k ≤ 65534 := (selfDeg_le_length acc k).trans hlen
    by_cases hksrc : c.sourceType = NEURON ∧ c.sourceNum = k
    · rw [if_pos hksrc]
      by_cases hksnk : c.sinkType = NEURON ∧ c.sinkNum = k
      · -- self-loop at k: both counters incremented
        rw [if_pos ⟨hksrc.1, hksrc.2, hksnk.1, hksnk.2⟩]
        have hself : c.sourceType = NEURON ∧ c.sourceNum = c.sinkNum :=
          ⟨hksrc.1, hksrc.2.trans hksnk.2.symm⟩
        have hsinkstep := find_processConnSink_self m c hksnk.1 hself
        rw [hksnk.2] at hsinkstep
        have hsrcstep := find_processConnSource_self (processConnSink m c) c hksrc.1
        rw [hksrc.2, hsinkstep] at hsrcstep
        rw [hsrcstep] at hfind
        simp only [Option.some.injEq] at hfind
        subst hfind
        simp only [Option.getD_some]
        cases hold : nmFind m k with
        | some v =>
          obtain ⟨ho, hsf⟩ := hcnt k v hold
          simp only [Option.getD_some]
          rw [ho, hsf, u16succ_eq _ houtle, u16succ_eq _ hselfle]
          exact ⟨rfl, rfl⟩
        | none =>
          obtain ⟨ho, hsf⟩ := deg_zero_of_absent acc m k hsrc hold
          simp only [Option.getD_none]
          rw [ho, hsf]
          exact ⟨rfl, rfl⟩
      · -- source at k, sink elsewhere: only numOutputs incremented
        rw [if_neg (fun hh => hksnk ⟨hh.2.2.1, hh.2.2.2⟩)]
        have hsinkstep : nmFind (processConnSink m c) k = nmFind m k :=
          find_processConnSink_ne m c k hksnk
        have hsrcstep := find_processConnSource_self (processConnSink m c) c hksrc.1
        rw [hksrc.2, hsinkstep] at hsrcstep
        rw [hsrcstep] at hfind
        simp only [Option.some.injEq] at hfind
        subst hfind
        cases hold : nmFind m k with
        | some v =>
          obtain ⟨ho, hsf⟩ := hcnt k v hold
          simp only [Option.getD_some]
          rw [ho, hsf, u16succ_eq _ houtle]
          exact ⟨rfl, rfl⟩
        | none =>
          obtain ⟨ho, hsf⟩ := deg_zero_of_absent acc m k hsrc hold
          simp only [Option.getD_none]
          rw [ho, hsf]
          exact ⟨rfl, rfl⟩
    · rw [if_neg hksrc]
      rw [find_processConnSource_ne _ c k hksrc] at hfind
      by_cases hksnk : c.sinkType = NEURON ∧ c.sinkNum = k
      · rw [if_neg (fun hh => hksrc ⟨hh.1, hh.2.1⟩)]
        have hself : ¬(c.sourceType = NEURON ∧ c.sourceNum = c.sinkNum) := by
          intro hh
          exact hksrc ⟨hh.1, hh.2.trans hksnk.2⟩
        have hsinkstep := find_processConnSink_nonself m c hksnk.1 hself
        rw [hksnk.2] at hsinkstep
        rw [hsinkstep] at hfind
        simp only [Option.some.injEq] at hfind
        subst hfind
        cases hold : nmFind m k with
        | some v =>
          obtain ⟨ho, hsf⟩ := hcnt k v hold
          simp only [Option.getD_some]
          rw [ho, hsf]
          exact ⟨rfl, rfl⟩
        | none =>
          obtain ⟨ho, hsf⟩ := deg_zero_of_absent acc m k hsrc hold
          simp only [Option.getD_none]
          rw [ho, hsf]
          exact ⟨rfl, rfl⟩
      · rw [if_neg (fun hh => hksrc ⟨hh.1, hh.2.1⟩)]
        rw [find_processConnSink_ne m c k hksnk] at hfind
        obtain ⟨ho, hsf⟩ := hcnt k nd hfind
        rw [ho, hsf]
        exact ⟨rfl, rfl⟩

lemma makeNodeList_fold_inv :
    ∀ (rest acc : List Gene) (m : NodeMap), CullInv acc m →
      acc.length + rest.length ≤ 65535 →
      CullInv (acc ++ rest)
        (rest.foldl (fun m c => processConnSource (processConnSink m c) c) m) := by
  intro rest
  induction rest with
  | nil =>
    intro acc m h _
    simpa using h
  | cons c rs ih =>
    intro acc m h hlen
    simp only [List.length_cons] at hlen
    have hstep := CullInv_step acc m c (by omega) h
    have hres := ih (acc ++ [c]) _ hstep (by simp; omega)
    simpa using hres

lemma makeNodeList_inv (conns : List Gene) (hlen : conns.length ≤ 65535) :
    CullInv conns (makeNodeList conns) := by
  have h0 : CullInv [] ([] : NodeMap) := by
    refine ⟨by simp [nmSorted], by simp, by simp, ?_⟩
    intro k nd hfind
    simp [nmFind_nil] at hfind
  have := makeNodeList_fold_inv conns [] [] h0 (by simpa using hlen)
  simpa [makeNodeList] using this

/-- The number of connections `removeConnectionsToNeuron _ _ n` drops whose
source is neuron `k` — the total decrement applied to `k`'s output count. -/
def remOut (conns : List Gene) (n k : ℕ) : ℕ :=
  conns.countP (fun c => decide ((c.sinkType = NEURON ∧ c.sinkNum = n) ∧
    c.sourceType = NEURON ∧ c.sourceNum = k))

lemma remOut_cons (c : Gene) (rest : List Gene) (n k : ℕ) :
    remOut (c :: rest) n k = remOut rest n k +
      (if (c.sinkType = NEURON ∧ c.sinkNum = n) ∧ c.sourceType = NEURON ∧ c.sourceNum = k
        then 1 else 0) := by
  unfold remOut
  rw [List.countP_cons]
  simp

lemma remOut_le_outDeg (conns : List Gene) (n k : ℕ) : remOut conns n k ≤ outDeg conns k := by
  unfold remOut outDeg
  apply List.countP_mono_left
  intro c hc h
  simp at h ⊢
  exact ⟨h.2.1, h.2.2⟩

lemma removeConns_nil (m : NodeMap) (n : ℕ) :
    removeConnectionsToNeuron [] m n = ([], m) := rfl

lemma removeConns_cons (c : Gene) (rest : List Gene) (m : NodeMap) (n : ℕ) :
    removeConnectionsToNeuron (c :: rest) m n =
      if c.sinkType = NEURON ∧ c.sinkNum = n then
        removeConnectionsToNeuron rest
          (if c.sourceType = NEURON then nmDecOutputs m c.sourceNum else m) n
      else
        (c :: (removeConnectionsToNeuron rest m n).1,
          (removeConnectionsToNeuron rest m n).2) := rfl

lemma removeConns_fst (n : ℕ) : ∀ (conns : List Gene) (m : NodeMap),
    (removeConnectionsToNeuron conns m n).1 =
      conns.filter (fun c => !decide (c.sinkType = NEURON ∧ c.sinkNum = n)) := by
  intro conns
  induction conns with
  | nil => intro m; rfl
  | cons c rest ih =>
    intro m
    rw [removeConns_cons, List.filter_cons]
    by_cases h : c.sinkType = NEURON ∧ c.sinkNum = n
    · rw [if_pos h]
      have hb : (!decide (c.sinkType = NEURON ∧ c.sinkNum = n)) = false := by simp [h]
      rw [hb]
      simp only [Bool.false_eq_true, if_false]
      exact ih _
    · rw [if_neg h]
      have hb : (!decide (c.sinkType = NEURON ∧ c.sinkNum = n)) = true := by simp [h]
      rw [hb]
      simp only [if_true]
      rw [ih m]

lemma find_nmDecOutputs_self (m : NodeMap) (k : ℕ) (v : Node) (h : nmFind m k = some v) :
    nmFind (nmDecOutputs m k) k = some { v with numOutputs := u16pred v.numOutputs } := by
  unfold nmDecOutputs
  rw [h]
  exact nmFind_nmSet_self m k _ (by simp [h])

lemma find_nmDecOutputs_ne (m : NodeMap) (k j : ℕ) (h : j ≠ k) :
    nmFind (nmDecOutputs m k) j = nmFind m j := by
  unfold nmDecOutputs
  cases hf : nmFind m k with
  | some v => exact nmFind_nmSet_ne m k _ j h
  | none => exact nmFind_nmInsert_ne m k _ j h

lemma sorted_removeConns (n : ℕ) : ∀ (conns : List Gene) (m : NodeMap), nmSorted m →
    nmSorted (removeConnectionsToNeuron conns m n).2 := by
  intro conns
  induction conns with
  | nil => intro m h; exact h
  | cons c rest ih =>
    intro m h
    rw [removeConns_cons]
    by_cases hrem : c.sinkType = NEURON ∧ c.sinkNum = n
    · rw [if_pos hrem]
      by_cases hsn : c.sourceType = NEURON
      · rw [if_pos hsn]
        exact ih _ (nmSorted_nmDecOutputs _ _ h)
      · rw [if_neg hsn]
        exact ih _ h
    · rw [if_neg hrem]
      exact ih _ h

lemma removeConns_find (n : ℕ) : ∀ (conns : List Gene) (m : NodeMap),
    (∀ c ∈ conns, c.sourceType = NEURON → (nmFind m c.sourceNum).isSome) →
    (∀ k nd, nmFind m k = some nd →
      remOut conns n k ≤ nd.numOutputs ∧ nd.numOutputs ≤ 65535) →
    ∀ k, nmFind (removeConnectionsToNeuron conns m n).2 k =
      (nmFind m k).map (fun nd => { nd with numOutputs := nd.numOutputs - remOut conns n k }) := by
  intro conns
  induction conns with
  | nil =>
    intro m _ _ k
    rw [removeConns_nil]
    cases hf : nmFind m k with
    | none => simp
    | some v =>
      simp only [Option.map_some']
      have h0 : remOut [] n k = 0 := rfl
      rw [h0]
      rfl
  | cons c rest ih =>
    intro m hsrc hbnd k
    rw [removeConns_cons]
    by_cases hrem : c.sinkType = NEURON ∧ c.sinkNum = n
    · rw [if_pos hrem]
      by_cases hsn : c.sourceType = NEURON
      · rw [if_pos hsn]
        have hsome := hsrc c (List.mem_cons_self _ _) hsn
        obtain ⟨v, hv⟩ := Option.isSome_iff_exists.mp hsome
        have hm1self := find_nmDecOutputs_self m c.sourceNum v hv
        have hm1ne : ∀ j, j ≠ c.sourceNum →
            nmFind (nmDecOutputs m c.sourceNum) j = nmFind m j :=
          fun j hj => find_nmDecOutputs_ne m c.sourceNum j hj
        have hvbnd := hbnd c.sourceNum v hv
        have hcount1 : remOut (c :: rest) n c.sourceNum = remOut rest n c.sourceNum + 1 := by
          rw [remOut_cons, if_pos ⟨hrem, hsn, rfl⟩]
        have hpred : u16pred v.numOutputs = v.numOutputs - 1 :=
          u16pred_eq _ (by omega) (by omega)
        have hsrc1 : ∀ c' ∈ rest, c'.sourceType = NEURON →
            (nmFind (nmDecOutputs m c.sourceNum) c'.sourceNum).isSome := by
          intro c' hc' h'
          by_cases hj : c'.sourceNum = c.sourceNum
          · rw [hj, hm1self]
            simp
          · rw [hm1ne _ hj]
            exact hsrc c' (List.mem_cons_of_mem _ hc') h'
        have hbnd1 : ∀ k' nd, nmFind (nmDecOutputs m c.sourceNum) k' = some nd →
            remOut rest n k' ≤ nd.numOutputs ∧ nd.numOutputs ≤ 65535 := by
          intro k' nd hfind
          by_cases hj : k' = c.sourceNum
          · subst hj
            rw [hm1self] at hfind
            simp only [Option.some.injEq] at hfind
            subst hfind
            dsimp only
            rw [hpred]
            omega
          · rw [hm1ne _ hj] at hfind
            have hb := hbnd k' nd hfind
            have hle : remOut rest n k' ≤ remOut (c :: rest) n k' := by
              rw [remOut_cons]
              omega
            omega
        have hrec := ih (nmDecOutputs m c.sourceNum) hsrc1 hbnd1 k
        rw [hrec]
        by_cases hj : k = c.sourceNum
        · subst hj
          rw [hm1self, hv]
          simp only [Option.map_some', Option.some.injEq]
          rcases v with ⟨vr, vo, vs, vi⟩
          dsimp only at hpred hvbnd ⊢
          rw [hpred, hcount1]
          simp only [Node.mk.injEq, true_and, and_true]
          omega
        · rw [hm1ne _ hj]
          have hcne : remOut (c :: rest) n k = remOut rest n k := by
            rw [remOut_cons, if_neg (fun hh : (c.sinkType = NEURON ∧ c.sinkNum = n) ∧
              c.sourceType = NEURON ∧ c.sourceNum = k => hj hh.2.2.symm)]
            omega
          rw [hcne]
      · rw [if_neg hsn]
        have hsrc1 : ∀ c' ∈ rest, c'.sourceType = NEURON → (nmFind m c'.sourceNum).isSome :=
          fun c' hc' h' => hsrc c' (List.mem_cons_of_mem _ hc') h'
        have hbnd1 : ∀ k' nd, nmFind m k' = some nd →
            remOut rest n k' ≤ nd.numOutputs ∧ nd.numOutputs ≤ 65535 := by
          intro k' nd hf
          have hb := hbnd k' nd hf
          have hle : remOut rest n k' ≤ remOut (c :: rest) n k' := by
            rw [remOut_cons]
            omega
          omega
        rw [ih m hsrc1 hbnd1 k]
        have hcne : remOut (c :: rest) n k = remOut rest n k := by
          rw [remOut_cons, if_neg (fun hh : (c.sinkType = NEURON ∧ c.sinkNum = n) ∧
            c.sourceType = NEURON ∧ c.sourceNum = k => hsn hh.2.1)]
          omega
        rw [hcne]
    · rw [if_neg hrem]
      dsimp only
      have hsrc1 : ∀ c' ∈ rest, c'.sourceType = NEURON → (nmFind m c'.sourceNum).isSome :=
        fun c' hc' h' => hsrc c' (List.mem_cons_of_mem _ hc') h'
      have hbnd1 : ∀ k' nd, nmFind m k' = some nd →
          remOut rest n k' ≤ nd.numOutputs ∧ nd.numOutputs ≤ 65535 := by
        intro k' nd hf
        have hb := hbnd k' nd hf
        have hle : remOut rest n k' ≤ remOut (c :: rest) n k' := by
          rw [remOut_cons]
          omega
        omega
      rw [ih m hsrc1 hbnd1 k]
      have hcne : remOut (c :: rest) n k = remOut rest n k := by
        rw [remOut_cons, if_neg (fun hh : (c.sinkType = NEURON ∧ c.sinkNum = n) ∧
          c.sourceType = NEURON ∧ c.sourceNum = k => hrem hh.1)]
        omega
      rw [hcne]

lemma outDeg_filter_keep (conns : List Gene) (n k' : ℕ) :
    outDeg (conns.filter (fun c => !decide (c.sinkType = NEURON ∧ c.sinkNum = n))) k' +
      remOut conns n k' = outDeg conns k' := by
  induction conns with
  | nil => simp [outDeg, remOut]
  | cons c rest ih =>
    rw [List.filter_cons]
    unfold outDeg remOut at ih ⊢
    by_cases hrem : c.sinkType = NEURON ∧ c.sinkNum = n
    · have hb : (!decide (c.sinkType = NEURON ∧ c.sinkNum = n)) = false := by simp [hrem]
      rw [hb]
      simp only [Bool.false_eq_true, if_false]
      rw [List.countP_cons, List.countP_cons]
      by_cases hsrc' : c.sourceType = NEURON ∧ c.sourceNum = k'
      · have h1 : (decide ((c.sinkType = NEURON ∧ c.sinkNum = n) ∧
            c.sourceType = NEURON ∧ c.sourceNum = k')) = true := by simp [hrem, hsrc']
        have h2 : (decide (c.sourceType = NEURON ∧ c.sourceNum = k')) = true := by
          simp [hsrc']
        rw [h1, h2]
        simp only [if_true]
        omega
      · have h1 : (decide ((c.sinkType = NEURON ∧ c.sinkNum = n) ∧
            c.sourceType = NEURON ∧ c.sourceNum = k')) = false := by simp [hsrc']
        have h2 : (decide (c.sourceType = NEURON ∧ c.sourceNum = k')) = false := by
          simp [hsrc']
        rw [h1, h2]
        simp only [Bool.false_eq_true, if_false]
        omega
    · have hb : (!decide (c.sinkType = NEURON ∧ c.sinkNum = n)) = true := by simp [hrem]
      rw [hb]
      simp only [if_true]
      rw [List.countP_cons, List.countP_cons, List.countP_cons]
      have h1 : (decide ((c.sinkType = NEURON ∧ c.sinkNum = n) ∧
          c.sourceType = NEURON ∧ c.sourceNum = k')) = false := by simp [hrem]
      rw [h1]
      simp only [Bool.false_eq_true, if_false]
      omega

lemma selfDeg_filter_keep (conns : List Gene) (n k' : ℕ) (hne : k' ≠ n) :
    selfDeg (conns.filter (fun c => !decide (c.sinkType = NEURON ∧ c.sinkNum = n))) k' =
      selfDeg conns k' := by
  induction conns with
  | nil => rfl
  | cons c rest ih =>
    rw [List.filter_cons]
    unfold selfDeg at ih ⊢
    by_cases hrem : c.sinkType = NEURON ∧ c.sinkNum = n
    · have hb : (!decide (c.sinkType = NEURON ∧ c.sinkNum = n)) = false := by simp [hrem]
      rw [hb]
      simp only [Bool.false_eq_true, if_false]
      rw [List.countP_cons]
      have h1 : (decide (c.sourceType = NEURON ∧ c.sourceNum = k' ∧
          c.sinkType = NEURON ∧ c.sinkNum = k')) = false := by
        simp only [decide_eq_false_iff_not]
        intro hh
        exact hne (hh.2.2.2.symm.trans hrem.2)
      rw [h1]
      simp only [Bool.false_eq_true, if_false]
      rw [ih]
      omega
    · have hb : (!decide (c.sinkType = NEURON ∧ c.sinkNum = n)) = true := by simp [hrem]
      rw [hb]
      simp only [if_true]
      rw [List.countP_cons, List.countP_cons, ih]

lemma countP_lt_of_witness {α : Type} (l : List α) (p q : α → Bool)
    (himp : ∀ a ∈ l, q a = true → p a = true)
    (a : α) (ha : a ∈ l) (hp : p a = true) (hq : q a = false) :
    l.countP q < l.countP p := by
  have hsplit := countP_and_not l p q
  have h1 : l.countP q = l.countP (fun a => p a && q a) := by
    apply List.countP_congr
    intro a' ha'
    cases hqa : q a' with
    | true => simp [himp a' ha' hqa, hqa]
    | false => simp [hqa]
  have h2 : 0 < l.countP (fun a => p a && !q a) := by
    rw [List.countP_pos]
    exact ⟨a, ha, by simp [hp, hq]⟩
  omega

lemma cullPass_inv (conns : List Gene) (m : NodeMap) (cursor : ℕ)
    (hlen : conns.length ≤ 65535) (hinv : CullInv conns m) :
    CullInv (cullPass conns m cursor).1 (cullPass conns m cursor).2.1 ∧
    (cullPass conns m cursor).1.length ≤ 65535 ∧
    ((cullPass conns m cursor).2.2 = false →
      ∀ k nd, (k, nd) ∈ m → cursor ≤ k → nd.numOutputs ≠ nd.numSelfInputs) := by
  induction conns, m, cursor using cullPass.induct with
  | case1 conns m cursor hfind =>
    rw [cullPass_eq_none conns m cursor hfind]
    refine ⟨hinv, hlen, ?_⟩
    intro _ k nd hm hc
    exact absurd hc (nmFirstKeyGE_none_forall m cursor hfind k nd hm)
  | case2 conns m cursor k nd hfind hcull p m2 ih =>
    obtain ⟨hs, hsinkm, hsrcm, hcnt⟩ := hinv
    have hm := nmFirstKeyGE_mem m cursor k nd hfind
    have hfindk : nmFind m k = some nd := nmFind_eq_of_mem m k nd hs hm.1
    have hndcnt := hcnt k nd hfindk
    have hdeg : outDeg conns k = selfDeg conns k := by
      rw [← hndcnt.1, ← hndcnt.2, hcull]
    have hsrck : ∀ c ∈ conns, c.sourceType = NEURON → c.sourceNum = k →
        c.sinkType = NEURON ∧ c.sinkNum = k := by
      intro c hc h1 h2
      by_contra hbad
      have hlt : selfDeg conns k < outDeg conns k := by
        unfold selfDeg outDeg
        apply countP_lt_of_witness _ _ _ ?_ c hc ?_ ?_
        · intro a ha hqa
          simp at hqa ⊢
          exact ⟨hqa.1, hqa.2.1⟩
        · simp [h1, h2]
        · simp only [decide_eq_false_iff_not]
          intro hh
          exact hbad ⟨hh.2.2.1, hh.2.2.2⟩
      omega
    have hbndP : ∀ k' nd', nmFind m k' = some nd' →
        remOut conns k k' ≤ nd'.numOutputs ∧ nd'.numOutputs ≤ 65535 := by
      intro k' nd' hf
      have h1 := (hcnt k' nd' hf).1
      have h2 := remOut_le_outDeg conns k k'
      have h3 := outDeg_le_length conns k'
      omega
    have hfindP := removeConns_find k conns m hsrcm hbndP
    have hsortP : nmSorted (removeConnectionsToNeuron conns m k).2 :=
      sorted_removeConns k conns m hs
    have hfstP := removeConns_fst k conns m
    have hlenP : (removeConnectionsToNeuron conns m k).1.length ≤ 65535 := by
      rw [hfstP]
      exact (List.length_filter_le _ _).trans hlen
    have hinv2 : CullInv (removeConnectionsToNeuron conns m k).1
        (nmErase (removeConnectionsToNeuron conns m k).2 k) := by
      refine ⟨nmSorted_nmErase _ _ hsortP, ?_, ?_, ?_⟩
      · intro c' hc' hst
        rw [hfstP] at hc'
        have hc'conns : c' ∈ conns := List.mem_of_mem_filter hc'
        have hkeep : ¬(c'.sinkType = NEURON ∧ c'.sinkNum = k) := by
          have h := List.of_mem_filter hc'
          simp only [Bool.not_eq_true'] at h
          exact of_decide_eq_false h
        have hne : c'.sinkNum ≠ k := fun hh => hkeep ⟨hst, hh⟩
        rw [nmFind_nmErase_ne _ _ _ hne, hfindP c'.sinkNum]
        have := hsinkm c' hc'conns hst
        simpa using this
      · intro c' hc' hst
        rw [hfstP] at hc'
        have hc'conns : c' ∈ conns := List.mem_of_mem_filter hc'
        have hkeep : ¬(c'.sinkType = NEURON ∧ c'.sinkNum = k) := by
          have h := List.of_mem_filter hc'
          simp only [Bool.not_eq_true'] at h
          exact of_decide_eq_false h
        have hne : c'.sourceNum ≠ k := by
          intro hh
          exact hkeep (hsrck c' hc'conns hst hh)
        rw [nmFind_nmErase_ne _ _ _ hne, hfindP c'.sourceNum]
        have := hsrcm c' hc'conns hst
        simpa using this
      · intro k' nd' hf2
        have hk'ne : k' ≠ k := by
          intro hh
          rw [hh, nmFind_nmErase_self _ _ hsortP] at hf2
          simp at hf2
        rw [nmFind_nmErase_ne _ _ _ hk'ne, hfindP k'] at hf2
        cases hf : nmFind m k' with
        | none =>
          rw [hf] at hf2
          simp at hf2
        | some v =>
          rw [hf] at hf2
          simp only [Option.map_some', Option.some.injEq] at hf2
          subst hf2
          obtain ⟨ho, hsf⟩ := hcnt k' v hf
          constructor
          · dsimp only
            rw [hfstP, ho]
            have hsplit := outDeg_filter_keep conns k k'
            omega
          · dsimp only
            rw [hfstP, hsf]
            exact (selfDeg_filter_keep conns k k' hk'ne).symm
    unfold cullPass
    rw [hfind]
    simp only [if_pos hcull]
    unfold m2 p at ih
    obtain ⟨hres1, hres2, -⟩ := ih hlenP hinv2
    refine ⟨hres1, hres2, ?_⟩
    intro habs
    simp at habs
  | case3 conns m cursor k nd hfind hcull ih =>
    rw [cullPass_eq_skip conns m cursor k nd hfind hcull]
    obtain ⟨hres1, hres2, hres3⟩ := ih hlen hinv
    refine ⟨hres1, hres2, ?_⟩
    intro hfalse j nd' hj hcur
    by_cases hjk : j = k
    · subst hjk
      have h1 := nmFind_eq_of_mem m j nd hinv.1 (nmFirstKeyGE_mem m cursor j nd hfind).1
      have h2 := nmFind_eq_of_mem m j nd' hinv.1 hj
      rw [h1] at h2
      simp only [Option.some.injEq] at h2
      rw [← h2]
      exact hcull
    · have hmin := nmFirstKeyGE_min m cursor k nd hinv.1 hfind j nd' hj hcur
      exact hres3 hfalse j nd' hj (by omega)

lemma cullUselessNeurons_inv (conns : List Gene) (m : NodeMap)
    (hlen : conns.length ≤ 65535) (hinv : CullInv conns m) :
    CullInv (cullUselessNeurons conns m).1 (cullUselessNeurons conns m).2 ∧
    (∀ k nd, (k, nd) ∈ (cullUselessNeurons conns m).2 →
      nd.numOutputs ≠ nd.numSelfInputs) := by
  induction conns, m using cullUselessNeurons.induct with
  | case1 conns m q hq ih =>
    obtain ⟨hP1, hP2, -⟩ := cullPass_inv conns m 0 hlen hinv
    unfold q at hq
    rw [cullUselessNeurons_eq_repeat conns m hq]
    unfold q at ih
    exact ih hP2 hP1
  | case2 conns m q hq =>
    unfold q at hq
    have hfalse : (cullPass conns m 0).2.2 = false := by
      rcases hb : (cullPass conns m 0).2.2 with _ | _
      · rfl
      · exact absurd hb hq
    rw [cullUselessNeurons_eq_done conns m hfalse]
    have hPeq : cullPass conns m 0 =
        ((cullPass conns m 0).1, (cullPass conns m 0).2.1, false) := by
      rw [← hfalse]
    obtain ⟨hc, hm2⟩ := cullPass_false_eq conns m 0 _ _ hPeq
    obtain ⟨hP1, hP2, hP3⟩ := cullPass_inv conns m 0 hlen hinv
    constructor
    · rw [hc, hm2]
      exact hinv
    · intro k nd hmem
      rw [hm2] at hmem
      exact hP3 hfalse k nd hmem (Nat.zero_le k)

/-- **C2 (amended).** What the culling loop actually guarantees is a
ONE-STEP liveness property: after `cullUselessNeurons` reaches its fixed
point, every neuron remaining in the node map has at least one outgoing
connection in the culled connection list whose sink is an action or a
different neuron.  The original claim — that every surviving neuron has a
directed path through the connections to some ACTION sink — is stronger
and FALSE: a two-neuron feedback cycle with no path to any action survives
culling (see `C2_reachability_counterexample`).  The length bound keeps
the `uint16_t` degree counters below their wrap-around. -/
theorem C2_cull_one_step (maxN : ℕ) (genome : List Gene)
    (hlen : genome.length ≤ 65535) :
    ∀ k nd,
      (k, nd) ∈ (cullUselessNeurons (makeRenumberedConnectionList maxN genome)
        (makeNodeList (makeRenumberedConnectionList maxN genome))).2 →
      ∃ c ∈ (cullUselessNeurons (makeRenumberedConnectionList maxN genome)
          (makeNodeList (makeRenumberedConnectionList maxN genome))).1,
        c.sourceType = NEURON ∧ c.sourceNum = k ∧
          ¬(c.sinkType = NEURON ∧ c.sinkNum = k) := by
  intro k nd hmem
  have hlen' : (makeRenumberedConnectionList maxN genome).length ≤ 65535 := by
    unfold makeRenumberedConnectionList
    rw [List.length_map]
    exact hlen
  have hinv0 := makeNodeList_inv (makeRenumberedConnectionList maxN genome) hlen'
  obtain ⟨hinvF, hfix⟩ := cullUselessNeurons_inv _ _ hlen' hinv0
  obtain ⟨hsF, hsinkF, hsrcF, hcntF⟩ := hinvF
  have hfindF := nmFind_eq_of_mem _ k nd hsF hmem
  obtain ⟨ho, hsf⟩ := hcntF k nd hfindF
  have hne := hfix k nd hmem
  have hmono : selfDeg (cullUselessNeurons (makeRenumberedConnectionList maxN genome)
      (makeNodeList (makeRenumberedConnectionList maxN genome))).1 k ≤
      outDeg (cullUselessNeurons (makeRenumberedConnectionList maxN genome)
        (makeNodeList (makeRenumberedConnectionList maxN genome))).1 k := by
    unfold selfDeg outDeg
    apply List.countP_mono_left
    intro a ha h
    simp at h ⊢
    exact ⟨h.1, h.2.1⟩
  have hlt : selfDeg (cullUselessNeurons (makeRenumberedConnectionList maxN genome)
      (makeNodeList (makeRenumberedConnectionList maxN genome))).1 k <
      outDeg (cullUselessNeurons (makeRenumberedConnectionList maxN genome)
        (makeNodeList (makeRenumberedConnectionList maxN genome))).1 k := by
    rcases Nat.lt_or_ge (selfDeg _ k) (outDeg _ k) with h | h
    · exact h
    · exfalso
      apply hne
      rw [ho, hsf]
      omega
  unfold selfDeg outDeg at hlt
  obtain ⟨c, hc, hp, hq⟩ := exists_of_countP_lt _ _ _ hlt
  simp only [decide_eq_true_eq] at hp
  refine ⟨c, hc, hp.1, hp.2, ?_⟩
  intro hh
  have : (decide (c.sourceType = NEURON ∧ c.sourceNum = k ∧
      c.sinkType = NEURON ∧ c.sinkNum = k)) = true := by
    simp [hp.1, hp.2, hh.1, hh.2]
  rw [hq] at this
  simp at this

/-- A single connection from neuron 0 to action 0. -/
def cwGenome : List Gene := [⟨NEURON, 0, ACTION, 0, 1⟩]

lemma cw_cullPass :
    cullPass (makeRenumberedConnectionList 5 cwGenome)
      (makeNodeList (makeRenumberedConnectionList 5 cwGenome)) 0 =
      (makeRenumberedConnectionList 5 cwGenome,
        makeNodeList (makeRenumberedConnectionList 5 cwGenome), false) := by
  rw [cullPass_eq_skip _ _ 0 0 ⟨0, 1, 0, 0⟩ (by decide) (by decide)]
  exact cullPass_eq_none _ _ 1 (by decide)

/-- Witness for `C2_cull_one_step` at a concrete genome. -/
theorem C2_cull_one_step_witness :
    ∃ c ∈ (cullUselessNeurons (makeRenumberedConnectionList 5 cwGenome)
        (makeNodeList (makeRenumberedConnectionList 5 cwGenome))).1,
      c.sourceType = NEURON ∧ c.sourceNum = 0 ∧
        ¬(c.sinkType = NEURON ∧ c.sinkNum = 0) :=
  C2_cull_one_step 5 cwGenome (by norm_num [cwGenome]) 0 ⟨0, 1, 0, 0⟩
    (by rw [cullUselessNeurons_eq_done _ _ (by rw [cw_cullPass]), cw_cullPass]
        decide)

end BioSim
